import Mathlib

/-!
# Verification of the outreach mailbox sync/correlation engine

Shallow embedding of the reply-ingestion code of this repository:

* `src/unnamed/part_000`, `app.post('/google/webhook')` (lines 309-408):
  webhook-triggered history sync, correlation resolution (in-reply-to
  lookup, then sender-email lookup), reply insertion, cursor update.
* `src/index.js`, `getPart` / `processGmailHistory` / `startGmailListener`
  (lines 522-585): poll-triggered history sync, MIME part extraction,
  quoted-reply stripping, reply insertion, cursor update.

External collaborators (Supabase tables, the Gmail API) are modelled as
explicit data: tables are lists of rows, network calls are `Except`-valued
inputs.  A JavaScript `throw` inside the processing loop is modelled as a
`Bool` failure flag carried next to the list of already-performed inserts,
because inserts are side effects that persist even when a later item
throws.  JavaScript truthiness that the code relies on (`!pageId` with a
possible numeric 0, `if (inReplyTo)` with a possible empty string,
`if (replyContent)`) is modelled explicitly.
-/

/- Equality on `Except` results is decidable; used to evaluate the
modelled network outcomes in concrete scenarios. -/
deriving instance DecidableEq for Except

namespace Outreach

/-- Supabase `.single()`: returns the row when the filtered result has
exactly one row, and null (`none`) otherwise (zero or several rows make
`.single()` report an error, which the handlers read as null data). -/
def single? {α : Type} (l : List α) : Option α :=
  match l with
  | [a] => some a
  | _ => none

/-- JS truthiness of the `pageId` variable (`let pageId = null; ...`):
`null` and `0` are falsy, any other number is truthy. -/
def optTruthy (o : Option Nat) : Bool :=
  match o with
  | some n => n != 0
  | none => false

/-- `inReplyTo.replace(/[<>]/g, '')`: remove every angle bracket. -/
def stripAngles (s : String) : String :=
  String.mk (s.data.filter (fun c => c ≠ '<' ∧ c ≠ '>'))

/-- A row of the `messages` table (outbound sends), as read by the
webhook handler: `select('page_id') ... eq('provider_message_id', ...)`.
`provider_message_id` is nullable in the insert at part_000 line 256. -/
structure MessageRow where
  provider_message_id : Option String
  page_id : Nat
deriving DecidableEq

/-- A row of the `pages` table (contacts), as read by both handlers:
`select('id') ... eq('contact_email', ...)`.  `contact_email` is nullable
(`pages` upsert accepts a missing contact email). -/
structure PageRow where
  id : Nat
  contact_email : Option String
deriving DecidableEq

/-- One address object of mailparser's `parsed.from.value`. -/
structure MailAddress where
  address : String
deriving DecidableEq

/-- mailparser's `parsed.from`: a list of address objects plus the
display text. -/
structure MailFrom where
  value : List MailAddress
  text : String
deriving DecidableEq

/-- The fields of a mailparser `simpleParser` result that the webhook
handler reads.  `from` is `none` when the message has no From header, in
which case `parsed.from.value` / `parsed.from.text` throw a TypeError. -/
structure ParsedMail where
  inReplyTo : Option String
  «from» : Option MailFrom
  text : String
  date : Nat
deriving DecidableEq

/-- The message carried by one entry of `item.messagesAdded` in a Gmail
history response: `msg.message.id` and `msg.message.labelIds`. -/
structure FeedMessage where
  id : String
  labelIds : List String
deriving DecidableEq

/-- One Gmail history item; `messagesAdded` is absent (`undefined`) or a
list — an absent field is modelled as the empty list, which the loop
treats identically (no iteration). -/
structure HistoryItem where
  messagesAdded : List FeedMessage
deriving DecidableEq

/-- The `replies` row inserted by the webhook handler (part_000 line 382):
content, platform, received timestamp, direction flag, page reference and
sender display text.  Note that no provider message id is stored. -/
structure ReplyRow where
  content : String
  platform : String
  received_at : Nat
  is_reply : Bool
  page_id : Nat
  sender : String
deriving DecidableEq

/-- Environment of one webhook-triggered sync: the two tables it queries
and the outcome of `gmail.users.messages.get` + `simpleParser` for each
message id (`Except.error` models a rejected promise / parser throw). -/
structure WebhookEnv where
  messages : List MessageRow
  pages : List PageRow
  fetchMessage : String → Except Unit ParsedMail

namespace Webhook

/-- Rule 1 of the correlation resolver (part_000 lines 358-367):
`if (inReplyTo)` — truthy check, so an empty string skips the rule — then
look up the single `messages` row whose `provider_message_id` equals the
bracket-stripped id; `if (originalMessage) pageId = originalMessage.page_id`. -/
def rule1 (msgs : List MessageRow) (inReplyTo : Option String) : Option Nat :=
  match inReplyTo with
  | some irt =>
    if irt = "" then none
    else
      (single? (msgs.filter
        (fun m => m.provider_message_id == some (stripAngles irt)))).map
        MessageRow.page_id
  | none => none

/-- Rule 2 of the correlation resolver (part_000 lines 369-379): look up
the single `pages` row whose `contact_email` equals
`parsed.from.value[0].address`; `if (page) pageId = page.id`. -/
def rule2 (pages : List PageRow) (f : MailFrom) : Option Nat :=
  match f.value.head? with
  | some a =>
    (single? (pages.filter (fun p => p.contact_email == some a.address))).map
      PageRow.id
  | none => none

/-- Processing of one `messagesAdded` entry by the webhook handler
(part_000 lines 349-394).  `Except.error ()` is a JavaScript throw that
escapes the per-item code (fetch/parse rejection, or a TypeError from
`parsed.from.value` / `parsed.from.text` when the From header is absent);
`Except.ok none` is an item that inserts nothing; `Except.ok (some r)` is
an inserted row. -/
def processFeedMessage (env : WebhookEnv) (msg : FeedMessage) :
    Except Unit (Option ReplyRow) :=
  if msg.labelIds.contains "UNREAD" && !(msg.labelIds.contains "SENT") then
    match env.fetchMessage msg.id with
    | Except.error e => Except.error e
    | Except.ok parsed =>
      let pageId1 := rule1 env.messages parsed.inReplyTo
      -- `if (!pageId && parsed.from.value && parsed.from.value.length > 0)`
      let step2 : Except Unit (Option Nat) :=
        if optTruthy pageId1 then Except.ok pageId1
        else
          match parsed.«from» with
          | none => Except.error ()      -- TypeError: reading `.value` of undefined
          | some f =>
            match rule2 env.pages f with
            | some pid => Except.ok (some pid)
            | none => Except.ok pageId1  -- pageId keeps its previous value
      match step2 with
      | Except.error e => Except.error e
      | Except.ok pageId =>
        if optTruthy pageId then
          -- the insert object reads `parsed.from.text` before inserting
          match parsed.«from» with
          | none => Except.error ()      -- TypeError: reading `.text` of undefined
          | some f =>
            Except.ok (some
              { content := parsed.text
                platform := "email"
                received_at := parsed.date
                is_reply := false
                page_id := pageId.getD 0
                sender := f.text })
        else
          Except.ok none                 -- only a console.log, nothing stored
  else
    Except.ok none

/-- The inner `for (const msg of item.messagesAdded)` loop: rows inserted
so far are threaded through, and a throw stops the loop keeping the rows
already inserted (they are durable Supabase writes). -/
def processFeed (env : WebhookEnv) :
    List FeedMessage → List ReplyRow → List ReplyRow × Bool
  | [], acc => (acc, false)
  | m :: rest, acc =>
    match processFeedMessage env m with
    | Except.error _ => (acc, true)
    | Except.ok none => processFeed env rest acc
    | Except.ok (some r) => processFeed env rest (acc ++ [r])

/-- The outer `for (const item of history)` loop of the webhook handler
(part_000 lines 346-397). -/
def processHistory (env : WebhookEnv) :
    List HistoryItem → List ReplyRow → List ReplyRow × Bool
  | [], acc => (acc, false)
  | it :: rest, acc =>
    match processFeed env it.messagesAdded acc with
    | (acc', true) => (acc', true)
    | (acc', false) => processHistory env rest acc'

end Webhook

/-- The webhook push envelope after `req.body.message` inspection:
`missingData` is a missing `message`/`message.data` (line 313),
`badJson` is a `JSON.parse` throw on the decoded payload (caught by the
outer catch), `valid` carries the decoded `{emailAddress, historyId}`
(the historyId already passed through `String(...)`). -/
inductive Envelope where
  | missingData
  | badJson
  | valid (emailAddress : String) (historyId : String)
deriving DecidableEq

/-- Durable state touched by the webhook handler: the stored cursor
(`secure_settings` key `google_history_id_team`, stored encrypted — the
encryption layer is analysed separately and is the identity for the
purposes of the sync logic) and the `replies` table. -/
structure SyncState where
  cursor : Option String
  replies : List ReplyRow
deriving DecidableEq

/-- JS truthiness of `startHistoryId` (part_000 line 332): null when the
settings row is absent, and the empty string is also falsy. -/
def cursorTruthy : Option String → Bool
  | none => false
  | some c => c != ""

/-- The `app.post('/google/webhook')` handler (part_000 lines 309-408)
after base64 decoding, as a function from the envelope, the stored state
and the outcome of `gmail.users.history.list` (`historyResult`; a `none`
history field is the empty item list) to the HTTP status and the new
state.  An `Except.error` in `historyResult` also covers a
`getGmailClient` throw — both abort before any processing.  The catch
block answers 500 and performs no further writes; the cursor upsert (line
401) runs only after the whole loop finished without throwing, and stores
the *notification's* historyId. -/
def googleWebhook (env : WebhookEnv) (historyResult : Except Unit (List HistoryItem))
    (st : SyncState) (envl : Envelope) : Nat × SyncState :=
  match envl with
  | Envelope.missingData => (400, st)
  | Envelope.badJson => (500, st)
  | Envelope.valid _ historyId =>
    if !cursorTruthy st.cursor then
      -- first notification: seed the cursor, answer 204, no history fetch
      (204, { st with cursor := some historyId })
    else
      match historyResult with
      | Except.error _ => (500, st)
      | Except.ok items =>
        match Webhook.processHistory env items st.replies with
        | (acc, true) => (500, { st with replies := acc })
        | (acc, false) => (204, { cursor := some historyId, replies := acc })

/- ------------------------------------------------------------------
Poll path: `src/index.js` lines 522-585
------------------------------------------------------------------- -/

/- A MIME part of a Gmail `payload`: its type, its decoded body
(`none` models an absent `body`/`body.data` — both falsy in the JS
check `part.body && part.body.data`) and its child parts (`part.parts`,
absent modelled as the empty part list).  The part list is its own
inductive (instead of `List MimePart`) so that the depth-first search
below is structurally recursive. -/
mutual

/-- One MIME part: type, decoded body, children. -/
inductive MimePart where
  | mk (mimeType : String) (body : Option String) (parts : MimeParts)

inductive MimeParts where
  | nil
  | cons (head : MimePart) (tail : MimeParts)

end

/-- `part.mimeType`. -/
def MimePart.mimeType : MimePart → String
  | MimePart.mk m _ _ => m

/-- `part.body && part.body.data`, already base64-decoded. -/
def MimePart.body : MimePart → Option String
  | MimePart.mk _ b _ => b

mutual

/-- `getPart(parts, mimeType)` (index.js lines 522-531): depth-first
search returning the first matching part's decoded body; an empty-string
recursive result is falsy in JS (`if (result) return result`), so the
search continues past it. -/
def getPart : MimeParts → String → String
  | MimeParts.nil, _ => ""
  | MimeParts.cons p rest, mimeType =>
    if p.mimeType == mimeType && p.body.isSome then p.body.getD ""
    else
      let r := getPartChildren p mimeType
      if r ≠ "" then r else getPart rest mimeType

/-- The `if (part.parts)` recursion of `getPart` into one part's
children. -/
def getPartChildren : MimePart → String → String
  | MimePart.mk _ _ children, mimeType => getPart children mimeType

end

/-- `['w','r','o','t','e',':']`, the literal tail of the quotation
marker regex `/\r?\nOn.*wrote:/`. -/
def wroteColon : List Char := ['w', 'r', 'o', 't', 'e', ':']

/-- Does the char list begin with the literal `wrote:`? -/
def startsWithWrote (cs : List Char) : Bool := cs.take 6 == wroteColon

/-- After the literal `On`, the regex continues `.*wrote:` where `.`
matches neither `\n` nor `\r`: scan forward for the literal `wrote:`,
stopping at any line terminator. -/
def hasWroteAfterOn : List Char → Bool
  | [] => false
  | c :: rest =>
    if startsWithWrote (c :: rest) then true
    else if c = '\n' ∨ c = '\r' then false
    else hasWroteAfterOn rest

/-- Does `On.*wrote:` match at the head of the char list? -/
def matchOnWrote : List Char → Bool
  | c :: d :: rest => if c = 'O' ∧ d = 'n' then hasWroteAfterOn rest else false
  | _ => false

/-- Does `\nOn.*wrote:` match at the head of the char list? -/
def matchNlOnWrote : List Char → Bool
  | [] => false
  | c :: rest => if c = '\n' then matchOnWrote rest else false

/-- Does a match of `/\r?\nOn.*wrote:/` start exactly at the head of the
char list?  The optional `\r` is taken when present. -/
def matchAt : List Char → Bool
  | [] => false
  | c :: rest =>
    if c = '\n' then matchOnWrote rest
    else if c = '\r' then matchNlOnWrote rest
    else false

/-- `body.split(/\r?\nOn.*wrote:/)[0]`: the text before the first match
of the quotation marker, or the whole text when no match exists. -/
def splitAtMarker : List Char → List Char
  | [] => []
  | c :: rest => if matchAt (c :: rest) then [] else c :: splitAtMarker rest

/-- The ASCII part of the whitespace set removed by the JS `trim()`
(space, tab, line feed, carriage return, vertical tab, form feed). -/
def isJsSpace (c : Char) : Bool :=
  c = ' ' ∨ c = '\t' ∨ c = '\n' ∨ c = '\r' ∨ c = Char.ofNat 11 ∨ c = Char.ofNat 12

/-- JS `String.prototype.trim` on ASCII text: drop whitespace from both
ends. -/
def jsTrim (cs : List Char) : List Char :=
  ((cs.dropWhile isJsSpace).reverse.dropWhile isJsSpace).reverse

/-- `body.split(/\r?\nOn.*wrote:/)[0].trim()` (index.js line 546). -/
def stripQuoted (body : String) : String :=
  String.mk (jsTrim (splitAtMarker body.data))

/-- Last index of `>` in the char list, if any. -/
def lastGtIndex (cs : List Char) : Option Nat :=
  match cs.reverse.findIdx? (fun c => c = '>') with
  | none => none
  | some k => some (cs.length - 1 - k)

/-- `fromHeader.match(/<(.+)>/)` capture group, or `none` when the regex
does not match (in which case index.js line 541 throws a TypeError on
`[1]` of null).  At each `<` the greedy `.+` (which crosses neither `\n`
nor `\r`) captures up to the last `>` of the same line provided at least
one character lies between; on failure the scan resumes after that `<`. -/
def extractCore : List Char → Option (List Char)
  | [] => none
  | c :: rest =>
    if c = '<' then
      let seg := rest.takeWhile (fun c => c ≠ '\n' ∧ c ≠ '\r')
      match lastGtIndex seg with
      | some j => if 1 ≤ j then some (seg.take j) else extractCore rest
      | none => extractCore rest
    else extractCore rest

/-- The sender address extracted by `fromHeader.match(/<(.+)>/)[1]`. -/
def extractAngleEmail (s : String) : Option String :=
  (extractCore s.data).map String.mk

/-- A row of the `messages` table as used by the poll path: the latest
one per page (`order('sent_at', desc).limit(1).single()`) anchors the
inserted reply. -/
structure SentMessage where
  id : Nat
  page_id : Nat
  sent_at : Nat
deriving DecidableEq

/-- `messages.select('id').eq('page_id', pid).order('sent_at',
desc).limit(1).single()`: the row with the greatest `sent_at` among the
page's rows (ties resolved by table order, keeping the earlier row), or
`none` when the page has no row. -/
def latestMessage (msgs : List SentMessage) (pid : Nat) : Option SentMessage :=
  (msgs.filter (fun m => m.page_id == pid)).foldl
    (fun acc m =>
      match acc with
      | none => some m
      | some a => if a.sent_at < m.sent_at then some m else acc)
    none

/-- One header object of a Gmail message payload. -/
structure Header where
  name : String
  value : String
deriving DecidableEq

/-- The fields of `messageDetails.data.payload` read by
`processGmailHistory`. -/
structure GmailMessage where
  headers : List Header
  parts : MimeParts

/-- The `replies` row inserted by the poll path (index.js line 550). -/
structure PollReply where
  message_id : Nat
  page_id : Nat
  content : String
  is_reply : Bool
  platform : String
deriving DecidableEq

/-- Environment of one poll-triggered sync: the two tables it queries,
the outcome of `gmail.users.messages.get` per message id, and the outcome
of the `gmail.users.messages.modify` (remove UNREAD) call per id — the
modify runs *after* the insert, so its throw leaves the inserted row
behind. -/
structure PollEnv where
  pages : List PageRow
  messages : List SentMessage
  fetchDetails : String → Except Unit GmailMessage
  modifyResult : String → Except Unit Unit

namespace Poll

/-- Processing of one `messagesAdded` entry by `processGmailHistory`
(index.js lines 537-556).  Result: the row this item inserted (if any)
and whether the item threw.  Throw sites: the messages.get rejection, the
TypeError when no `From` header exists (`find(...).value`), the TypeError
when the From header has no `<...>` (`match(...)[1]` of null), and the
modify rejection — the last one fires after the insert. -/
def processPollMessage (env : PollEnv) (m : FeedMessage) :
    Option PollReply × Bool :=
  if m.labelIds.contains "INBOX" then
    match env.fetchDetails m.id with
    | Except.error _ => (none, true)
    | Except.ok gm =>
      match gm.headers.find? (fun h => h.name == "From") with
      | none => (none, true)
      | some h =>
        match extractAngleEmail h.value with
        | none => (none, true)
        | some fromEmail =>
          match single? (env.pages.filter
              (fun p => p.contact_email == some fromEmail)) with
          | none => (none, false)
          | some page =>
            let b0 := getPart gm.parts "text/plain"
            let body := if b0 = "" then getPart gm.parts "text/html" else b0
            let replyContent := stripQuoted body
            if replyContent = "" then (none, false)
            else
              match latestMessage env.messages page.id with
              | none => (none, false)
              | some orig =>
                let r : PollReply :=
                  { message_id := orig.id
                    page_id := page.id
                    content := replyContent
                    is_reply := false
                    platform := "email" }
                match env.modifyResult m.id with
                | Except.error _ => (some r, true)
                | Except.ok _ => (some r, false)
  else (none, false)

/-- The inner `for (const msg of item.messagesAdded)` loop of
`processGmailHistory`: inserted rows persist; a throw aborts the loop. -/
def processPollFeed (env : PollEnv) :
    List FeedMessage → List PollReply → List PollReply × Bool
  | [], acc => (acc, false)
  | m :: rest, acc =>
    match processPollMessage env m with
    | (r, true) => (acc ++ r.toList, true)
    | (none, false) => processPollFeed env rest acc
    | (some r, false) => processPollFeed env rest (acc ++ [r])

/-- `processGmailHistory(history)` (index.js lines 533-560): the outer
loop over history items. -/
def processGmailHistory (env : PollEnv) :
    List HistoryItem → List PollReply → List PollReply × Bool
  | [], acc => (acc, false)
  | it :: rest, acc =>
    match processPollFeed env it.messagesAdded acc with
    | (acc', true) => (acc', true)
    | (acc', false) => processGmailHistory env rest acc'

end Poll

/-- Durable state touched by one tick of the poll loop: the in-memory
`startHistoryId`, the stored copy in `secure_settings` (encrypted at
rest; the encryption layer is analysed separately), and the `replies`
table. -/
structure PollState where
  startHistoryId : String
  stored : Option String
  replies : List PollReply
deriving DecidableEq

/-- One tick of the `setInterval` body in `startGmailListener`
(index.js lines 574-583), as a function of the `history.list` outcome
(`listResult` carries the optional `history` array and the returned
`historyId`).  The whole body is wrapped in a try/catch that only logs:
a throw from the list call or from `processGmailHistory` leaves both
cursors unchanged; on success the cursor is advanced to the
provider-returned `historyId` even when the history array was absent. -/
def pollTick (env : PollEnv)
    (listResult : Except Unit (Option (List HistoryItem) × String))
    (st : PollState) : PollState :=
  match listResult with
  | Except.error _ => st
  | Except.ok (histOpt, newId) =>
    match histOpt with
    | none => { st with startHistoryId := newId, stored := some newId }
    | some items =>
      match Poll.processGmailHistory env items st.replies with
      | (acc, true) => { st with replies := acc }
      | (acc, false) =>
        { startHistoryId := newId, stored := some newId, replies := acc }

/- ------------------------------------------------------------------
Line-level reading of the quotation-marker split, used to state the
corrected form of the quoted-reply-stripping property.
------------------------------------------------------------------- -/

/-- Does `On.*wrote:` match at the start of one line? -/
def lineIsMarker (l : String) : Bool := matchOnWrote l.data

/-- Join lines with `\n` separators (inverse of splitting a text into
lines). -/
def joinLines : List String → String
  | [] => ""
  | [l] => l
  | l :: ls => l ++ "\n" ++ joinLines ls

/-- Keep lines before the first marker line, the first line being exempt
from the marker test (a match needs a preceding newline): helper for the
tail. -/
def takeToMarkerTail : List String → List String
  | [] => []
  | l :: ls => if lineIsMarker l then [] else l :: takeToMarkerTail ls

/-- Keep the lines before the first marker line; the first line is never
treated as a marker because the regex requires a preceding newline. -/
def takeToMarker : List String → List String
  | [] => []
  | l :: ls => l :: takeToMarkerTail ls

/-- The amended reading of the quoted-reply stripping, stated on a text
given as its list of lines: keep the lines strictly before the first line
(other than the first) that matches `On.*wrote:` — no blank-line
requirement — rejoin them with `\n`, and trim surrounding whitespace; a
text with no such line is kept whole, trimmed. -/
def stripQuotedSpec (lines : List String) : String :=
  String.mk (jsTrim (joinLines (takeToMarker lines)).data)

/- ------------------------------------------------------------------
Concrete instances used by counterexamples and witnesses.
------------------------------------------------------------------- -/

/-- An outbound send recorded for page 1 with provider message id `M1`. -/
def messagesTableA : List MessageRow := [{ provider_message_id := some "M1", page_id := 1 }]

/-- A contact page (id 7) whose stored contact email is the sender's
address, distinct from page 1 that owns message `M1`. -/
def pagesTableA : List PageRow := [{ id := 7, contact_email := some "bob@other.com" }]

/-- A parsed inbound message replying to `M1`, sent from the address
stored on page 7. -/
def parsedA : ParsedMail :=
  { inReplyTo := some "<M1>"
    «from» := some { value := [{ address := "bob@other.com" }], text := "Bob <bob@other.com>" }
    text := "Thanks!"
    date := 5 }

/-- Gmail fetch returning `parsedA` for message id `abc`. -/
def envA : WebhookEnv :=
  { messages := messagesTableA
    pages := pagesTableA
    fetchMessage := fun id => if id = "abc" then Except.ok parsedA else Except.error () }

/-- A single-item history batch carrying inbound message `abc`. -/
def itemsA : List HistoryItem :=
  [{ messagesAdded := [{ id := "abc", labelIds := ["UNREAD", "INBOX"] }] }]

/-- The reply row the webhook inserts for `parsedA` (attributed to page 1
through rule 1). -/
def rowA : ReplyRow :=
  { content := "Thanks!", platform := "email", received_at := 5
    is_reply := false, page_id := 1, sender := "Bob <bob@other.com>" }

/-- The feed message of `itemsA`. -/
def msgA : FeedMessage := { id := "abc", labelIds := ["UNREAD", "INBOX"] }

/-- A parsed inbound message matching neither resolution rule: its
in-reply-to id references no stored outbound message and its sender
address matches no stored contact email. -/
def parsedB : ParsedMail :=
  { inReplyTo := some "<MX>"
    «from» := some { value := [{ address := "stranger@nowhere.org" }], text := "S <stranger@nowhere.org>" }
    text := "Hello, who is this?"
    date := 9 }

/-- Environment for the unattributed-reply scenario. -/
def envB : WebhookEnv :=
  { messages := messagesTableA
    pages := pagesTableA
    fetchMessage := fun id => if id = "abc" then Except.ok parsedB else Except.error () }

/-- A two-item batch whose second message's fetch rejects: item 1 (`abc`)
is applied, item 2 (`boom`) throws. -/
def itemsTwo : List HistoryItem :=
  [{ messagesAdded := [{ id := "abc", labelIds := ["UNREAD", "INBOX"] },
                       { id := "boom", labelIds := ["UNREAD", "INBOX"] }] }]

/-- An environment where every message fetch rejects (network failure
inside the triggered sync). -/
def envFail : WebhookEnv :=
  { messages := messagesTableA
    pages := pagesTableA
    fetchMessage := fun _ => Except.error () }

/-- Poll-path environment: contact page 7, an outbound message (id 21)
for it, message `m1` whose From header lacks the `<...>` bracket form
(decode failure), message `m2` a well-formed reply from the contact. -/
def envPoll : PollEnv :=
  { pages := [{ id := 7, contact_email := some "carol@x.com" }]
    messages := [{ id := 21, page_id := 7, sent_at := 50 }]
    fetchDetails := fun id =>
      if id = "m2" then
        Except.ok
          { headers := [{ name := "From", value := "Carol <carol@x.com>" }]
            parts := MimeParts.cons
              (MimePart.mk "text/plain" (some "Sounds good!") MimeParts.nil) MimeParts.nil }
      else if id = "m1" then
        Except.ok { headers := [{ name := "From", value := "carol@x.com" }], parts := MimeParts.nil }
      else Except.error ()
    modifyResult := fun _ => Except.ok () }

/-- The malformed poll message (`From` header without angle brackets). -/
def msgPollBad : FeedMessage := { id := "m1", labelIds := ["INBOX"] }

/-- The well-formed poll message that would store a reply. -/
def msgPollGood : FeedMessage := { id := "m2", labelIds := ["INBOX"] }

/-- The reply row `msgPollGood` inserts when it is processed. -/
def rowPollGood : PollReply :=
  { message_id := 21, page_id := 7, content := "Sounds good!", is_reply := false, platform := "email" }

/-- Poll batch: the malformed message followed by the well-formed one. -/
def itemsPoll : List HistoryItem := [{ messagesAdded := [msgPollBad, msgPollGood] }]

/- ------------------------------------------------------------------
Secret Vault: shallow embedding of the CryptoJS primitives used at
part_000 lines 17-20 / index.js lines 422-425:

    const encrypt = (text) => CryptoJS.AES.encrypt(text, ENCRYPTION_KEY).toString();
    const decrypt = (ct)   => CryptoJS.AES.decrypt(ct, ENCRYPTION_KEY).toString(CryptoJS.enc.Utf8);

`CryptoJS.AES.encrypt(text, passphrase)` is the OpenSSL-compatible
password-based scheme: an 8-byte random salt (modelled as an explicit
parameter), EVP_BytesToKey with MD5 and one iteration deriving a 32-byte
AES-256 key and a 16-byte IV, PKCS7 padding, CBC mode, and the
`Salted__ || salt || ciphertext` layout serialised in Base64.  Decryption
reverses the pipeline, strips the padding *without any validation* (the
CryptoJS Pkcs7.unpad just drops as many bytes as the last byte says), and
`toString(CryptoJS.enc.Utf8)` throws on malformed UTF-8 — there is no
authentication tag anywhere.  Bytes are `Nat` below 256, 32-bit words are
`Nat` below 2^32 with explicit truncation.
------------------------------------------------------------------- -/

namespace Vault

/-- Truncation to a 32-bit word. -/
def w32 (n : Nat) : Nat := n % 4294967296

/-- 32-bit left rotation (argument below 2^32, amount between 1 and 31). -/
def rotl32 (x n : Nat) : Nat := w32 (x <<< n) ||| (x >>> (32 - n))

/-- 32-bit complement. -/
def not32 (x : Nat) : Nat := 4294967295 ^^^ x

/-- MD5 per-step rotation amounts. -/
def md5S : List Nat := [
  7, 12, 17, 22, 7, 12, 17, 22, 7, 12, 17, 22, 7, 12, 17, 22,
  5, 9, 14, 20, 5, 9, 14, 20, 5, 9, 14, 20, 5, 9, 14, 20,
  4, 11, 16, 23, 4, 11, 16, 23, 4, 11, 16, 23, 4, 11, 16, 23,
  6, 10, 15, 21, 6, 10, 15, 21, 6, 10, 15, 21, 6, 10, 15, 21]

/-- MD5 sine-table constants `floor(abs(sin(i+1)) * 2^32)`. -/
def md5K : List Nat := [
  3614090360, 3905402710, 606105819, 3250441966,
  4118548399, 1200080426, 2821735955, 4249261313,
  1770035416, 2336552879, 4294925233, 2304563134,
  1804603682, 4254626195, 2792965006, 1236535329,
  4129170786, 3225465664, 643717713, 3921069994,
  3593408605, 38016083, 3634488961, 3889429448,
  568446438, 3275163606, 4107603335, 1163531501,
  2850285829, 4243563512, 1735328473, 2368359562,
  4294588738, 2272392833, 1839030562, 4259657740,
  2763975236, 1272893353, 4139469664, 3200236656,
  681279174, 3936430074, 3572445317, 76029189,
  3654602809, 3873151461, 530742520, 3299628645,
  4096336452, 1126891415, 2878612391, 4237533241,
  1700485571, 2399980690, 4293915773, 2240044497,
  1873313359, 4264355552, 2734768916, 1309151649,
  4149444226, 3174756917, 718787259, 3951481745]

/-- The four bytes of a 32-bit word, little-endian. -/
def wordLEBytes (w : Nat) : List Nat :=
  [w % 256, w / 256 % 256, w / 65536 % 256, w / 16777216 % 256]

/-- Little-endian 32-bit words read off a byte list, four bytes at a
time. -/
def wordsLE : List Nat → List Nat
  | b0 :: b1 :: b2 :: b3 :: rest =>
    (b0 + 256 * b1 + 65536 * b2 + 16777216 * b3) :: wordsLE rest
  | _ => []

/-- One MD5 step: round function, message-word index, add, rotate. -/
def md5Step (m : List Nat) (st : Nat × Nat × Nat × Nat) (i : Nat) :
    Nat × Nat × Nat × Nat :=
  let (a, b, c, d) := st
  let fg : Nat × Nat :=
    if i < 16 then ((b &&& c) ||| (not32 b &&& d), i)
    else if i < 32 then ((d &&& b) ||| (not32 d &&& c), (5 * i + 1) % 16)
    else if i < 48 then (b ^^^ c ^^^ d, (3 * i + 5) % 16)
    else (c ^^^ (b ||| not32 d), (7 * i) % 16)
  let f := w32 (fg.1 + a + md5K.getD i 0 + m.getD fg.2 0)
  (d, w32 (b + rotl32 f (md5S.getD i 0)), b, c)

/-- One 64-byte MD5 chunk folded into the running state. -/
def md5Chunk (st : Nat × Nat × Nat × Nat) (chunk : List Nat) :
    Nat × Nat × Nat × Nat :=
  let m := wordsLE chunk
  let s := (List.range 64).foldl (md5Step m) st
  (w32 (st.1 + s.1), w32 (st.2.1 + s.2.1), w32 (st.2.2.1 + s.2.2.1),
   w32 (st.2.2.2 + s.2.2.2))

/-- MD5 padding: `0x80`, zeros up to 56 mod 64, 8-byte little-endian bit
length. -/
def md5Pad (msg : List Nat) : List Nat :=
  let len := msg.length
  let zeros := (119 - len % 64) % 64
  let bitLen := 8 * len
  msg ++ [128] ++ List.replicate zeros 0 ++
    [bitLen % 256, bitLen / 256 % 256, bitLen / 65536 % 256,
     bitLen / 16777216 % 256, bitLen / 4294967296 % 256,
     bitLen / 1099511627776 % 256, bitLen / 281474976710656 % 256,
     bitLen / 72057594037927936 % 256]

/-- 64-byte chunks, driven by fuel (the padded length is a multiple of
64, so the fuel `length / 64` consumes the whole list). -/
def chunks64 : Nat → List Nat → List (List Nat)
  | 0, _ => []
  | n + 1, bs => bs.take 64 :: chunks64 n (bs.drop 64)

/-- MD5 of a byte list (the CryptoJS `EvpKDF` hasher). -/
def md5 (msg : List Nat) : List Nat :=
  let padded := md5Pad msg
  let s := (chunks64 (padded.length / 64) padded).foldl md5Chunk
    (1732584193, 4023233417, 2562383102, 271733878)
  wordLEBytes s.1 ++ wordLEBytes s.2.1 ++ wordLEBytes s.2.2.1 ++
    wordLEBytes s.2.2.2

/-- `CryptoJS.kdf.OpenSSL` / `EvpKDF` with MD5 and one iteration:
`D1 = MD5(pass || salt)`, `D2 = MD5(D1 || pass || salt)`,
`D3 = MD5(D2 || pass || salt)`; the AES-256 key is `D1 || D2` and the IV
is `D3`. -/
def evpKdf (password salt : List Nat) : List Nat × List Nat :=
  let d1 := md5 (password ++ salt)
  let d2 := md5 (d1 ++ password ++ salt)
  let d3 := md5 (d2 ++ password ++ salt)
  (d1 ++ d2, d3)

end Vault

namespace Vault

/-- The AES S-box (FIPS-197 figure 7; CryptoJS computes the same table at
startup). -/
def sboxTable : List Nat := [
  99, 124, 119, 123, 242, 107, 111, 197, 48, 1, 103, 43, 254, 215, 171, 118,
  202, 130, 201, 125, 250, 89, 71, 240, 173, 212, 162, 175, 156, 164, 114, 192,
  183, 253, 147, 38, 54, 63, 247, 204, 52, 165, 229, 241, 113, 216, 49, 21,
  4, 199, 35, 195, 24, 150, 5, 154, 7, 18, 128, 226, 235, 39, 178, 117,
  9, 131, 44, 26, 27, 110, 90, 160, 82, 59, 214, 179, 41, 227, 47, 132,
  83, 209, 0, 237, 32, 252, 177, 91, 106, 203, 190, 57, 74, 76, 88, 207,
  208, 239, 170, 251, 67, 77, 51, 133, 69, 249, 2, 127, 80, 60, 159, 168,
  81, 163, 64, 143, 146, 157, 56, 245, 188, 182, 218, 33, 16, 255, 243, 210,
  205, 12, 19, 236, 95, 151, 68, 23, 196, 167, 126, 61, 100, 93, 25, 115,
  96, 129, 79, 220, 34, 42, 144, 136, 70, 238, 184, 20, 222, 94, 11, 219,
  224, 50, 58, 10, 73, 6, 36, 92, 194, 211, 172, 98, 145, 149, 228, 121,
  231, 200, 55, 109, 141, 213, 78, 169, 108, 86, 244, 234, 101, 122, 174, 8,
  186, 120, 37, 46, 28, 166, 180, 198, 232, 221, 116, 31, 75, 189, 139, 138,
  112, 62, 181, 102, 72, 3, 246, 14, 97, 53, 87, 185, 134, 193, 29, 158,
  225, 248, 152, 17, 105, 217, 142, 148, 155, 30, 135, 233, 206, 85, 40, 223,
  140, 161, 137, 13, 191, 230, 66, 104, 65, 153, 45, 15, 176, 84, 187, 22]

/-- The inverse AES S-box. -/
def invSboxTable : List Nat := [
  82, 9, 106, 213, 48, 54, 165, 56, 191, 64, 163, 158, 129, 243, 215, 251,
  124, 227, 57, 130, 155, 47, 255, 135, 52, 142, 67, 68, 196, 222, 233, 203,
  84, 123, 148, 50, 166, 194, 35, 61, 238, 76, 149, 11, 66, 250, 195, 78,
  8, 46, 161, 102, 40, 217, 36, 178, 118, 91, 162, 73, 109, 139, 209, 37,
  114, 248, 246, 100, 134, 104, 152, 22, 212, 164, 92, 204, 93, 101, 182, 146,
  108, 112, 72, 80, 253, 237, 185, 218, 94, 21, 70, 87, 167, 141, 157, 132,
  144, 216, 171, 0, 140, 188, 211, 10, 247, 228, 88, 5, 184, 179, 69, 6,
  208, 44, 30, 143, 202, 63, 15, 2, 193, 175, 189, 3, 1, 19, 138, 107,
  58, 145, 17, 65, 79, 103, 220, 234, 151, 242, 207, 206, 240, 180, 230, 115,
  150, 172, 116, 34, 231, 173, 53, 133, 226, 249, 55, 232, 28, 117, 223, 110,
  71, 241, 26, 113, 29, 41, 197, 137, 111, 183, 98, 14, 170, 24, 190, 27,
  252, 86, 62, 75, 198, 210, 121, 32, 154, 219, 192, 254, 120, 205, 90, 244,
  31, 221, 168, 51, 136, 7, 199, 49, 177, 18, 16, 89, 39, 128, 236, 95,
  96, 81, 127, 169, 25, 181, 74, 13, 45, 229, 122, 159, 147, 201, 156, 239,
  160, 224, 59, 77, 174, 42, 245, 176, 200, 235, 187, 60, 131, 83, 153, 97,
  23, 43, 4, 126, 186, 119, 214, 38, 225, 105, 20, 99, 85, 33, 12, 125]

/-- S-box lookup of one byte. -/
def sboxB (b : Nat) : Nat := sboxTable.getD b 0

/-- Inverse S-box lookup of one byte. -/
def invSboxB (b : Nat) : Nat := invSboxTable.getD b 0

/-- Multiplication by `x` in GF(2^8) modulo `x^8 + x^4 + x^3 + x + 1`. -/
def xtime (a : Nat) : Nat := (2 * a) % 256 ^^^ (if 128 ≤ a then 27 else 0)

/-- GF(2^8) multiplication by 2. -/
def g2 (a : Nat) : Nat := xtime a

/-- GF(2^8) multiplication by 3. -/
def g3 (a : Nat) : Nat := xtime a ^^^ a

/-- GF(2^8) multiplication by 9 = 8 + 1. -/
def g9 (a : Nat) : Nat := xtime (xtime (xtime a)) ^^^ a

/-- GF(2^8) multiplication by 11 = 8 + 2 + 1. -/
def g11 (a : Nat) : Nat := xtime (xtime (xtime a)) ^^^ xtime a ^^^ a

/-- GF(2^8) multiplication by 13 = 8 + 4 + 1. -/
def g13 (a : Nat) : Nat := xtime (xtime (xtime a)) ^^^ xtime (xtime a) ^^^ a

/-- GF(2^8) multiplication by 14 = 8 + 4 + 2. -/
def g14 (a : Nat) : Nat := xtime (xtime (xtime a)) ^^^ xtime (xtime a) ^^^ xtime a

/-- The 16-byte AES state; byte `s(r + 4c)` is row `r`, column `c`
(FIPS-197 layout: input byte `i` lands at `s(i)`). -/
structure AesState where
  s0 : Nat
  s1 : Nat
  s2 : Nat
  s3 : Nat
  s4 : Nat
  s5 : Nat
  s6 : Nat
  s7 : Nat
  s8 : Nat
  s9 : Nat
  s10 : Nat
  s11 : Nat
  s12 : Nat
  s13 : Nat
  s14 : Nat
  s15 : Nat
deriving DecidableEq

/-- All-zero state (used as the `getD` fallback; never reached on
well-formed key material). -/
def zeroState : AesState := ⟨0, 0, 0, 0, 0, 0, 0, 0, 0, 0, 0, 0, 0, 0, 0, 0⟩

/-- State from the first 16 bytes of a list. -/
def bytesToState (bs : List Nat) : AesState :=
  ⟨bs.getD 0 0, bs.getD 1 0, bs.getD 2 0, bs.getD 3 0, bs.getD 4 0, bs.getD 5 0, bs.getD 6 0, bs.getD 7 0, bs.getD 8 0, bs.getD 9 0, bs.getD 10 0, bs.getD 11 0, bs.getD 12 0, bs.getD 13 0, bs.getD 14 0, bs.getD 15 0⟩

/-- The 16 bytes of a state. -/
def stateToBytes (st : AesState) : List Nat :=
  [st.s0, st.s1, st.s2, st.s3, st.s4, st.s5, st.s6, st.s7, st.s8, st.s9, st.s10, st.s11, st.s12, st.s13, st.s14, st.s15]

/-- SubBytes. -/
def subBytes (st : AesState) : AesState :=
  ⟨sboxB st.s0, sboxB st.s1, sboxB st.s2, sboxB st.s3, sboxB st.s4, sboxB st.s5, sboxB st.s6, sboxB st.s7, sboxB st.s8, sboxB st.s9, sboxB st.s10, sboxB st.s11, sboxB st.s12, sboxB st.s13, sboxB st.s14, sboxB st.s15⟩

/-- InvSubBytes. -/
def invSubBytes (st : AesState) : AesState :=
  ⟨invSboxB st.s0, invSboxB st.s1, invSboxB st.s2, invSboxB st.s3, invSboxB st.s4, invSboxB st.s5, invSboxB st.s6, invSboxB st.s7, invSboxB st.s8, invSboxB st.s9, invSboxB st.s10, invSboxB st.s11, invSboxB st.s12, invSboxB st.s13, invSboxB st.s14, invSboxB st.s15⟩

/-- ShiftRows: row `r` rotates left by `r`;
`out(r + 4c) = in(r + 4((c + r) mod 4))`. -/
def shiftRows (st : AesState) : AesState :=
  ⟨st.s0, st.s5, st.s10, st.s15, st.s4, st.s9, st.s14, st.s3, st.s8, st.s13, st.s2, st.s7, st.s12, st.s1, st.s6, st.s11⟩

/-- InvShiftRows: row `r` rotates right by `r`. -/
def invShiftRows (st : AesState) : AesState :=
  ⟨st.s0, st.s13, st.s10, st.s7, st.s4, st.s1, st.s14, st.s11, st.s8, st.s5, st.s2, st.s15, st.s12, st.s9, st.s6, st.s3⟩

/-- Row 0 of MixColumns applied to one column. -/
def mc0 (a b c d : Nat) : Nat := g2 a ^^^ g3 b ^^^ c ^^^ d

/-- Row 1 of MixColumns applied to one column. -/
def mc1 (a b c d : Nat) : Nat := a ^^^ g2 b ^^^ g3 c ^^^ d

/-- Row 2 of MixColumns applied to one column. -/
def mc2 (a b c d : Nat) : Nat := a ^^^ b ^^^ g2 c ^^^ g3 d

/-- Row 3 of MixColumns applied to one column. -/
def mc3 (a b c d : Nat) : Nat := g3 a ^^^ b ^^^ c ^^^ g2 d

/-- Row 0 of InvMixColumns applied to one column. -/
def im0 (a b c d : Nat) : Nat := g14 a ^^^ g11 b ^^^ g13 c ^^^ g9 d

/-- Row 1 of InvMixColumns applied to one column. -/
def im1 (a b c d : Nat) : Nat := g9 a ^^^ g14 b ^^^ g11 c ^^^ g13 d

/-- Row 2 of InvMixColumns applied to one column. -/
def im2 (a b c d : Nat) : Nat := g13 a ^^^ g9 b ^^^ g14 c ^^^ g11 d

/-- Row 3 of InvMixColumns applied to one column. -/
def im3 (a b c d : Nat) : Nat := g11 a ^^^ g13 b ^^^ g9 c ^^^ g14 d

/-- MixColumns, column by column. -/
def mixColumns (st : AesState) : AesState :=
  ⟨mc0 st.s0 st.s1 st.s2 st.s3, mc1 st.s0 st.s1 st.s2 st.s3, mc2 st.s0 st.s1 st.s2 st.s3, mc3 st.s0 st.s1 st.s2 st.s3, mc0 st.s4 st.s5 st.s6 st.s7, mc1 st.s4 st.s5 st.s6 st.s7, mc2 st.s4 st.s5 st.s6 st.s7, mc3 st.s4 st.s5 st.s6 st.s7, mc0 st.s8 st.s9 st.s10 st.s11, mc1 st.s8 st.s9 st.s10 st.s11, mc2 st.s8 st.s9 st.s10 st.s11, mc3 st.s8 st.s9 st.s10 st.s11, mc0 st.s12 st.s13 st.s14 st.s15, mc1 st.s12 st.s13 st.s14 st.s15, mc2 st.s12 st.s13 st.s14 st.s15, mc3 st.s12 st.s13 st.s14 st.s15⟩

/-- InvMixColumns, column by column. -/
def invMixColumns (st : AesState) : AesState :=
  ⟨im0 st.s0 st.s1 st.s2 st.s3, im1 st.s0 st.s1 st.s2 st.s3, im2 st.s0 st.s1 st.s2 st.s3, im3 st.s0 st.s1 st.s2 st.s3, im0 st.s4 st.s5 st.s6 st.s7, im1 st.s4 st.s5 st.s6 st.s7, im2 st.s4 st.s5 st.s6 st.s7, im3 st.s4 st.s5 st.s6 st.s7, im0 st.s8 st.s9 st.s10 st.s11, im1 st.s8 st.s9 st.s10 st.s11, im2 st.s8 st.s9 st.s10 st.s11, im3 st.s8 st.s9 st.s10 st.s11, im0 st.s12 st.s13 st.s14 st.s15, im1 st.s12 st.s13 st.s14 st.s15, im2 st.s12 st.s13 st.s14 st.s15, im3 st.s12 st.s13 st.s14 st.s15⟩

/-- AddRoundKey: bytewise xor with the round key. -/
def addRoundKey (st k : AesState) : AesState :=
  ⟨st.s0 ^^^ k.s0, st.s1 ^^^ k.s1, st.s2 ^^^ k.s2, st.s3 ^^^ k.s3, st.s4 ^^^ k.s4, st.s5 ^^^ k.s5, st.s6 ^^^ k.s6, st.s7 ^^^ k.s7, st.s8 ^^^ k.s8, st.s9 ^^^ k.s9, st.s10 ^^^ k.s10, st.s11 ^^^ k.s11, st.s12 ^^^ k.s12, st.s13 ^^^ k.s13, st.s14 ^^^ k.s14, st.s15 ^^^ k.s15⟩

/-- Round constants for the AES-256 key expansion (`i / 8` runs 1..7). -/
def rcon : List Nat := [1, 2, 4, 8, 16, 32, 64]

/-- SubWord of the key expansion. -/
def subWord (w : List Nat) : List Nat := w.map sboxB

/-- RotWord of the key expansion. -/
def rotWord : List Nat → List Nat
  | [a, b, c, d] => [b, c, d, a]
  | w => w

/-- Bytewise xor of two words. -/
def xorWord (a b : List Nat) : List Nat := List.zipWith (fun x y => x ^^^ y) a b

/-- The next word of the AES-256 key expansion (FIPS-197 §5.2 with
`Nk = 8`), given the words produced so far. -/
def ksNext (ws : List (List Nat)) : List Nat :=
  let i := ws.length
  let prev := ws.getD (i - 1) []
  let temp :=
    if i % 8 = 0 then
      xorWord (subWord (rotWord prev)) [rcon.getD (i / 8 - 1) 0, 0, 0, 0]
    else if i % 8 = 4 then subWord prev
    else prev
  xorWord (ws.getD (i - 8) []) temp

/-- Iterate the key expansion. -/
def ksAux : Nat → List (List Nat) → List (List Nat)
  | 0, ws => ws
  | n + 1, ws => ksAux n (ws ++ [ksNext ws])

/-- Four-byte words of a byte list. -/
def words4 : List Nat → List (List Nat)
  | a :: b :: c :: d :: rest => [a, b, c, d] :: words4 rest
  | _ => []

/-- The 60 words of the AES-256 key schedule. -/
def keyWords (keyBytes : List Nat) : List (List Nat) :=
  ksAux 52 (words4 keyBytes)

/-- Round-key states: four consecutive schedule words form the columns of
one round key. -/
def keyStates : List (List Nat) → List AesState
  | w0 :: w1 :: w2 :: w3 :: rest =>
    bytesToState (w0 ++ w1 ++ w2 ++ w3) :: keyStates rest
  | _ => []

/-- The fifteen round keys of AES-256. -/
def roundKeys (keyBytes : List Nat) : List AesState :=
  keyStates (keyWords keyBytes)

/-- Rounds 1..13: SubBytes, ShiftRows, MixColumns, AddRoundKey. -/
def midRun : List AesState → AesState → AesState
  | [], st => st
  | k :: ks, st => midRun ks (addRoundKey (mixColumns (shiftRows (subBytes st))) k)

/-- The AES cipher given the initial round key, the thirteen middle round
keys and the last round key. -/
def aesEncryptBlockKeys (k0 : AesState) (mid : List AesState)
    (klast : AesState) (pt : AesState) : AesState :=
  addRoundKey (shiftRows (subBytes (midRun mid (addRoundKey pt k0)))) klast

/-- Inverse middle rounds: InvShiftRows, InvSubBytes, AddRoundKey,
InvMixColumns, consuming the middle round keys in reverse order. -/
def decMid : List AesState → AesState → AesState
  | [], st => st
  | k :: ks, st => decMid ks (invMixColumns (addRoundKey (invSubBytes (invShiftRows st)) k))

/-- The AES inverse cipher (FIPS-197 §5.3; extensionally what the
CryptoJS table-based equivalent-inverse-cipher computes). -/
def aesDecryptBlockKeys (k0 : AesState) (mid : List AesState)
    (klast : AesState) (ct : AesState) : AesState :=
  addRoundKey (invSubBytes (invShiftRows (decMid mid.reverse (addRoundKey ct klast)))) k0

/-- AES-256 block encryption from the 32 key bytes. -/
def aesEncryptBlock (keyBytes : List Nat) (pt : AesState) : AesState :=
  let rks := roundKeys keyBytes
  aesEncryptBlockKeys (rks.getD 0 zeroState) ((rks.drop 1).take 13)
    (rks.getD 14 zeroState) pt

/-- AES-256 block decryption from the 32 key bytes. -/
def aesDecryptBlock (keyBytes : List Nat) (ct : AesState) : AesState :=
  let rks := roundKeys keyBytes
  aesDecryptBlockKeys (rks.getD 0 zeroState) ((rks.drop 1).take 13)
    (rks.getD 14 zeroState) ct

end Vault

namespace Vault

/-- Bytewise xor of two equal-length byte lists. -/
def xorBytes (a b : List Nat) : List Nat := List.zipWith (fun x y => x ^^^ y) a b

/-- 16-byte blocks of a byte list (the ragged-tail case never occurs on
the multiple-of-16 inputs the mode produces/consumes). -/
def chunks16 : List Nat → List (List Nat)
  | b0 :: b1 :: b2 :: b3 :: b4 :: b5 :: b6 :: b7 :: b8 :: b9 :: b10 :: b11 :: b12 :: b13 :: b14 :: b15 :: rest => [b0, b1, b2, b3, b4, b5, b6, b7, b8, b9, b10, b11, b12, b13, b14, b15] :: chunks16 rest
  | [] => []
  | bs => [bs]

/-- CBC encryption of a block list, `prev` being the IV or the previous
ciphertext block. -/
def cbcEncryptBlocks (keyBytes : List Nat) (prev : List Nat) :
    List (List Nat) → List (List Nat)
  | [] => []
  | b :: rest =>
    let c := stateToBytes (aesEncryptBlock keyBytes (bytesToState (xorBytes prev b)))
    c :: cbcEncryptBlocks keyBytes c rest

/-- CBC decryption of a block list. -/
def cbcDecryptBlocks (keyBytes : List Nat) (prev : List Nat) :
    List (List Nat) → List (List Nat)
  | [] => []
  | c :: rest =>
    xorBytes prev (stateToBytes (aesDecryptBlock keyBytes (bytesToState c))) ::
      cbcDecryptBlocks keyBytes c rest

/-- PKCS7 padding to a multiple of 16 bytes. -/
def pkcs7Pad (bs : List Nat) : List Nat :=
  let n := 16 - bs.length % 16
  bs ++ List.replicate n n

/-- CryptoJS `Pkcs7.unpad`: read the last byte and drop that many bytes
from the end — the padding bytes are *not* validated, so wrong-key
garbage is silently accepted whenever the result happens to decode. -/
def pkcs7UnpadNoCheck (bs : List Nat) : List Nat :=
  let n := bs.getLast?.getD 0
  bs.take (bs.length - n)

/-- Base64 alphabet. -/
def b64Char (v : Nat) : Char :=
  if v < 26 then Char.ofNat (65 + v)
  else if v < 52 then Char.ofNat (97 + v - 26)
  else if v < 62 then Char.ofNat (48 + v - 52)
  else if v = 62 then Char.ofNat 43
  else Char.ofNat 47

/-- Base64 alphabet lookup. -/
def b64Val (c : Char) : Option Nat :=
  let n := c.toNat
  if 65 ≤ n ∧ n ≤ 90 then some (n - 65)
  else if 97 ≤ n ∧ n ≤ 122 then some (n - 97 + 26)
  else if 48 ≤ n ∧ n ≤ 57 then some (n - 48 + 52)
  else if n = 43 then some 62
  else if n = 47 then some 63
  else none

/-- Base64 encoding with `=` padding. -/
def b64Encode : List Nat → List Char
  | [] => []
  | [a] => [b64Char (a / 4), b64Char (a % 4 * 16), '=', '=']
  | [a, b] => [b64Char (a / 4), b64Char (a % 4 * 16 + b / 16), b64Char (b % 16 * 4), '=']
  | a :: b :: c :: rest =>
    b64Char (a / 4) :: b64Char (a % 4 * 16 + b / 16) ::
      b64Char (b % 16 * 4 + c / 64) :: b64Char (c % 64) :: b64Encode rest

/-- Base64 decoding of well-formed (`=`-padded) input. -/
def b64Decode : List Char → Option (List Nat)
  | [] => some []
  | c1 :: c2 :: c3 :: c4 :: rest =>
    match b64Val c1, b64Val c2 with
    | some v1, some v2 =>
      if c3 = Char.ofNat 61 then
        if c4 = Char.ofNat 61 ∧ rest = [] then some [v1 * 4 + v2 / 16] else none
      else
        match b64Val c3 with
        | some v3 =>
          if c4 = Char.ofNat 61 then
            if rest = [] then some [v1 * 4 + v2 / 16, v2 % 16 * 16 + v3 / 4] else none
          else
            match b64Val c4 with
            | some v4 =>
              (b64Decode rest).map (fun bs =>
                (v1 * 4 + v2 / 16) :: (v2 % 16 * 16 + v3 / 4) :: (v3 % 4 * 64 + v4) :: bs)
            | none => none
        | none => none
    | _, _ => none
  | _ => none

/-- UTF-8 bytes of one unicode scalar value. -/
def utf8EncodeChar (ch : Char) : List Nat :=
  let n := ch.toNat
  if n < 128 then [n]
  else if n < 2048 then [192 + n / 64, 128 + n % 64]
  else if n < 65536 then [224 + n / 4096, 128 + n / 64 % 64, 128 + n % 64]
  else [240 + n / 262144, 128 + n / 4096 % 64, 128 + n / 64 % 64, 128 + n % 64]

/-- UTF-8 bytes of a string (CryptoJS `Utf8.parse`). -/
def utf8Encode (s : String) : List Nat :=
  s.data.foldr (fun ch acc => utf8EncodeChar ch ++ acc) []

/-- One UTF-8 scalar from a two-byte sequence. -/
def utf8Dec2 (b : Nat) : List Nat → Option (Char × List Nat)
  | b1 :: rest' =>
    if 128 ≤ b1 ∧ b1 < 192 then
      some (Char.ofNat ((b - 192) * 64 + (b1 - 128)), rest')
    else none
  | [] => none

/-- One UTF-8 scalar from a three-byte sequence (overlong encodings and
surrogates rejected). -/
def utf8Dec3 (b : Nat) : List Nat → Option (Char × List Nat)
  | b1 :: b2 :: rest' =>
    if (128 ≤ b1 ∧ b1 < 192) ∧ (128 ≤ b2 ∧ b2 < 192) then
      let n := (b - 224) * 4096 + (b1 - 128) * 64 + (b2 - 128)
      if n < 2048 ∨ (55296 ≤ n ∧ n < 57344) then none
      else some (Char.ofNat n, rest')
    else none
  | _ => none

/-- One UTF-8 scalar from a four-byte sequence (overlong encodings and
out-of-range values rejected). -/
def utf8Dec4 (b : Nat) : List Nat → Option (Char × List Nat)
  | b1 :: b2 :: b3 :: rest' =>
    if (128 ≤ b1 ∧ b1 < 192) ∧ (128 ≤ b2 ∧ b2 < 192) ∧ (128 ≤ b3 ∧ b3 < 192) then
      let n := (b - 240) * 262144 + (b1 - 128) * 4096 + (b2 - 128) * 64 + (b3 - 128)
      if n < 65536 ∨ 1114112 ≤ n then none
      else some (Char.ofNat n, rest')
    else none
  | _ => none

/-- Decode one UTF-8 scalar off the front of a byte list, returning the
character and the remaining bytes; `none` on any malformed sequence. -/
def utf8DecodeOne : List Nat → Option (Char × List Nat)
  | [] => none
  | b :: rest =>
    if b < 128 then some (Char.ofNat b, rest)
    else if b < 194 then none
    else if b < 224 then utf8Dec2 b rest
    else if b < 240 then utf8Dec3 b rest
    else if b < 245 then utf8Dec4 b rest
    else none

/-- Fuel-driven decoding loop: each step consumes at least one byte, so
fuel equal to the byte count always suffices. -/
def utf8DecodeLoop : Nat → List Nat → Option (List Char)
  | 0, bs => if bs = [] then some [] else none
  | fuel + 1, bs =>
    if bs = [] then some []
    else
      (utf8DecodeOne bs).bind
        (fun cr => (utf8DecodeLoop fuel cr.2).map (fun cs => cr.1 :: cs))

/-- Strict UTF-8 decoding (CryptoJS `Utf8.stringify` — built on
`decodeURIComponent` — throws on malformed sequences, modelled as
`none`): continuation bytes must be `10xxxxxx`, overlong encodings,
surrogates and values above `0x10FFFF` are rejected. -/
def utf8Decode (bs : List Nat) : Option (List Char) :=
  utf8DecodeLoop bs.length bs

/-- The `Salted__` marker of the OpenSSL ciphertext layout. -/
def saltedPrefix : List Nat := [83, 97, 108, 116, 101, 100, 95, 95]

/-- Every entry of a byte list is an actual byte. -/
def BytesOk (bs : List Nat) : Prop := ∀ b ∈ bs, b < 256

/-- Every field of an AES state is an actual byte. -/
def StateOk (st : AesState) : Prop :=
  st.s0 < 256 ∧ st.s1 < 256 ∧ st.s2 < 256 ∧ st.s3 < 256 ∧
  st.s4 < 256 ∧ st.s5 < 256 ∧ st.s6 < 256 ∧ st.s7 < 256 ∧
  st.s8 < 256 ∧ st.s9 < 256 ∧ st.s10 < 256 ∧ st.s11 < 256 ∧
  st.s12 < 256 ∧ st.s13 < 256 ∧ st.s14 < 256 ∧ st.s15 < 256

instance : Std.Associative (fun a b : Nat => a ^^^ b) := ⟨Nat.xor_assoc⟩

instance : Std.Commutative (fun a b : Nat => a ^^^ b) := ⟨Nat.xor_comm⟩

end Vault

/-- `const encrypt = (text) => CryptoJS.AES.encrypt(text, ENCRYPTION_KEY).toString()`
(part_000 line 19), with the library's random 8-byte salt made an
explicit parameter: derive key and IV from the passphrase and salt via
the MD5 EvpKDF, PKCS7-pad the UTF-8 plaintext, encrypt in AES-256-CBC,
and serialise `Salted__ || salt || ciphertext` in Base64. -/
def encrypt (key : String) (salt : List Nat) (text : String) : String :=
  let pass := Vault.utf8Encode key
  let kiv := Vault.evpKdf pass salt
  let padded := Vault.pkcs7Pad (Vault.utf8Encode text)
  let ct := (Vault.cbcEncryptBlocks kiv.1 kiv.2 (Vault.chunks16 padded)).flatten
  String.mk (Vault.b64Encode (Vault.saltedPrefix ++ salt ++ ct))

/-- `const decrypt = (ciphertext) => CryptoJS.AES.decrypt(ciphertext, ENCRYPTION_KEY).toString(CryptoJS.enc.Utf8)`
(part_000 line 20): parse the Base64 OpenSSL layout, re-derive key and IV
from the embedded salt, CBC-decrypt, strip the PKCS7 padding with *no*
validation (CryptoJS drops as many bytes as the last byte says), and
decode the bytes as UTF-8 — `Except.error` is the `Malformed UTF-8 data`
throw; no integrity check of any kind is performed. -/
def decrypt (key : String) (ciphertext : String) : Except Unit String :=
  match Vault.b64Decode ciphertext.data with
  | none => Except.error ()
  | some raw =>
    if raw.take 8 = Vault.saltedPrefix then
      let salt := (raw.drop 8).take 8
      let ct := raw.drop 16
      let pass := Vault.utf8Encode key
      let kiv := Vault.evpKdf pass salt
      let padded := (Vault.cbcDecryptBlocks kiv.1 kiv.2 (Vault.chunks16 ct)).flatten
      let data := Vault.pkcs7UnpadNoCheck padded
      match Vault.utf8Decode data with
      | some cs => Except.ok (String.mk cs)
      | none => Except.error ()
    else Except.error ()


/- ------------------------------------------------------------------
Helper lemmas: the processing loops accumulate inserted rows on the
left, and item failure aborts the remainder of the batch.
------------------------------------------------------------------- -/

namespace Webhook

theorem processFeed_acc (env : WebhookEnv) (ms : List FeedMessage) :
    ∀ acc : List ReplyRow,
      processFeed env ms acc =
        (acc ++ (processFeed env ms []).1, (processFeed env ms []).2) := by
  induction ms with
  | nil => intro acc; simp [processFeed]
  | cons m rest ih =>
    intro acc
    cases h : processFeedMessage env m with
    | error e => simp [processFeed, h]
    | ok o =>
      cases o with
      | none =>
        simp only [processFeed, h]
        exact ih acc
      | some r =>
        simp only [processFeed, h]
        rw [ih (acc ++ [r]), ih ([] ++ [r])]
        simp

theorem processHistory_acc (env : WebhookEnv) (its : List HistoryItem) :
    ∀ acc : List ReplyRow,
      processHistory env its acc =
        (acc ++ (processHistory env its []).1, (processHistory env its []).2) := by
  induction its with
  | nil => intro acc; simp [processHistory]
  | cons it rest ih =>
    intro acc
    simp only [processHistory]
    rw [processFeed_acc env it.messagesAdded acc, processFeed_acc env it.messagesAdded []]
    cases hf : (processFeed env it.messagesAdded []).2 with
    | true => simp
    | false =>
      simp only [Bool.false_eq_true, ↓reduceIte, List.nil_append]
      rw [ih (acc ++ (processFeed env it.messagesAdded []).1),
          ih (processFeed env it.messagesAdded []).1]
      simp

end Webhook

namespace Poll

theorem processPollFeed_acc (env : PollEnv) (ms : List FeedMessage) :
    ∀ acc : List PollReply,
      processPollFeed env ms acc =
        (acc ++ (processPollFeed env ms []).1, (processPollFeed env ms []).2) := by
  induction ms with
  | nil => intro acc; simp [processPollFeed]
  | cons m rest ih =>
    intro acc
    cases h : processPollMessage env m with
    | mk r flag =>
      cases flag with
      | true => simp [processPollFeed, h]
      | false =>
        cases r with
        | none =>
          simp only [processPollFeed, h]
          exact ih acc
        | some r0 =>
          simp only [processPollFeed, h]
          rw [ih (acc ++ [r0]), ih ([] ++ [r0])]
          simp

theorem processGmailHistory_acc (env : PollEnv) (its : List HistoryItem) :
    ∀ acc : List PollReply,
      processGmailHistory env its acc =
        (acc ++ (processGmailHistory env its []).1, (processGmailHistory env its []).2) := by
  induction its with
  | nil => intro acc; simp [processGmailHistory]
  | cons it rest ih =>
    intro acc
    simp only [processGmailHistory]
    rw [processPollFeed_acc env it.messagesAdded acc, processPollFeed_acc env it.messagesAdded []]
    cases hf : (processPollFeed env it.messagesAdded []).2 with
    | true => simp
    | false =>
      simp only [Bool.false_eq_true, ↓reduceIte, List.nil_append]
      rw [ih (acc ++ (processPollFeed env it.messagesAdded []).1),
          ih (processPollFeed env it.messagesAdded []).1]
      simp

theorem processPollFeed_append (env : PollEnv) (xs ys : List FeedMessage) :
    ∀ acc : List PollReply,
      processPollFeed env (xs ++ ys) acc =
        (if (processPollFeed env xs acc).2 then processPollFeed env xs acc
         else processPollFeed env ys (processPollFeed env xs acc).1) := by
  induction xs with
  | nil => intro acc; simp [processPollFeed]
  | cons m rest ih =>
    intro acc
    cases h : processPollMessage env m with
    | mk r flag =>
      cases flag with
      | true => simp [processPollFeed, h]
      | false =>
        cases r with
        | none =>
          simp only [List.cons_append, processPollFeed, h]
          exact ih acc
        | some r0 =>
          simp only [List.cons_append, processPollFeed, h]
          exact ih (acc ++ [r0])

end Poll


/- ------------------------------------------------------------------
Vault lemmas I: GF(2^8) algebra of the MixColumns inverse.
------------------------------------------------------------------- -/

namespace Vault

theorem xor_lt_256 (a b : Nat) (ha : a < 256) (hb : b < 256) : a ^^^ b < 256 :=
  Nat.xor_lt_two_pow (n := 8) ha hb

theorem two_mul_mod_xor (a b : Nat) :
    (2 * (a ^^^ b)) % 256 = (2 * a) % 256 ^^^ (2 * b) % 256 := by
  apply Nat.eq_of_testBit_eq
  intro i
  have h2 : ∀ x : Nat, 2 * x = x <<< 1 := fun x => by rw [Nat.shiftLeft_eq]; ring
  simp only [h2, show (256 : ℕ) = 2 ^ 8 from by norm_num]
  simp only [Nat.testBit_mod_two_pow, Nat.testBit_shiftLeft, Nat.testBit_xor]
  cases decide (i < 8) <;> cases decide (1 ≤ i) <;> simp

theorem testBit7_iff (x : Nat) (hx : x < 256) : x.testBit 7 = decide (128 ≤ x) := by
  rw [Nat.testBit_to_div_mod]
  have h1 : x / 2 ^ 7 = if 128 ≤ x then 1 else 0 := by
    split <;> omega
  rw [h1]
  split <;> simp_all

theorem cond_xor (a b : Nat) (ha : a < 256) (hb : b < 256) :
    (if 128 ≤ a ^^^ b then 27 else 0) =
      ((if 128 ≤ a then 27 else 0) ^^^ (if 128 ≤ b then 27 else 0) : Nat) := by
  have h7 : decide (128 ≤ a ^^^ b) = ((decide (128 ≤ a)).xor (decide (128 ≤ b))) := by
    rw [← testBit7_iff _ (xor_lt_256 a b ha hb), ← testBit7_iff _ ha, ← testBit7_iff _ hb]
    simp [Nat.testBit_xor]
  by_cases hA : 128 ≤ a <;> by_cases hB : 128 ≤ b <;>
    simp [hA, hB] at h7 ⊢ <;> omega

theorem xor_swap_mid (w x y z : Nat) :
    (w ^^^ x) ^^^ (y ^^^ z) = (w ^^^ y) ^^^ (x ^^^ z) := by
  rw [Nat.xor_assoc w x (y ^^^ z), ← Nat.xor_assoc x y z, Nat.xor_comm x y,
      Nat.xor_assoc y x z, ← Nat.xor_assoc w y (x ^^^ z)]

theorem xtime_linear (a b : Nat) (ha : a < 256) (hb : b < 256) :
    xtime (a ^^^ b) = xtime a ^^^ xtime b := by
  unfold xtime
  rw [two_mul_mod_xor, cond_xor a b ha hb]
  exact xor_swap_mid _ _ _ _

theorem xtime_lt (a : Nat) : xtime a < 256 := by
  unfold xtime
  have h1 : 2 * a % 256 < 256 := Nat.mod_lt _ (by norm_num)
  have h2 : (if 128 ≤ a then 27 else 0 : Nat) < 256 := by split <;> norm_num
  exact xor_lt_256 _ _ h1 h2

theorem xt2_linear (a b : Nat) (ha : a < 256) (hb : b < 256) :
    xtime (xtime (a ^^^ b)) = xtime (xtime a) ^^^ xtime (xtime b) := by
  rw [xtime_linear a b ha hb, xtime_linear _ _ (xtime_lt a) (xtime_lt b)]

theorem xt3_linear (a b : Nat) (ha : a < 256) (hb : b < 256) :
    xtime (xtime (xtime (a ^^^ b))) =
      xtime (xtime (xtime a)) ^^^ xtime (xtime (xtime b)) := by
  rw [xt2_linear a b ha hb, xtime_linear _ _ (xtime_lt _) (xtime_lt _)]

theorem g9_linear (a b : Nat) (ha : a < 256) (hb : b < 256) :
    g9 (a ^^^ b) = g9 a ^^^ g9 b := by
  unfold g9
  rw [xt3_linear a b ha hb]
  ac_rfl

theorem g11_linear (a b : Nat) (ha : a < 256) (hb : b < 256) :
    g11 (a ^^^ b) = g11 a ^^^ g11 b := by
  unfold g11
  rw [xt3_linear a b ha hb, xtime_linear a b ha hb]
  ac_rfl

theorem g13_linear (a b : Nat) (ha : a < 256) (hb : b < 256) :
    g13 (a ^^^ b) = g13 a ^^^ g13 b := by
  unfold g13
  rw [xt3_linear a b ha hb, xt2_linear a b ha hb]
  ac_rfl

theorem g14_linear (a b : Nat) (ha : a < 256) (hb : b < 256) :
    g14 (a ^^^ b) = g14 a ^^^ g14 b := by
  unfold g14
  rw [xt3_linear a b ha hb, xt2_linear a b ha hb, xtime_linear a b ha hb]
  ac_rfl

theorem g2_lt (a : Nat) : g2 a < 256 := xtime_lt a

theorem g3_lt (a : Nat) (ha : a < 256) : g3 a < 256 := xor_lt_256 _ _ (xtime_lt a) ha

theorem g9_lt (a : Nat) (ha : a < 256) : g9 a < 256 := xor_lt_256 _ _ (xtime_lt _) ha

theorem g11_lt (a : Nat) (ha : a < 256) : g11 a < 256 :=
  xor_lt_256 _ _ (xor_lt_256 _ _ (xtime_lt _) (xtime_lt _)) ha

theorem g13_lt (a : Nat) (ha : a < 256) : g13 a < 256 :=
  xor_lt_256 _ _ (xor_lt_256 _ _ (xtime_lt _) (xtime_lt _)) ha

theorem g14_lt (a : Nat) : g14 a < 256 :=
  xor_lt_256 _ _ (xor_lt_256 _ _ (xtime_lt _) (xtime_lt _)) (xtime_lt _)

theorem lin4 {g : Nat → Nat}
    (glin : ∀ x y, x < 256 → y < 256 → g (x ^^^ y) = g x ^^^ g y)
    (x1 x2 x3 x4 : Nat) (h1 : x1 < 256) (h2 : x2 < 256) (h3 : x3 < 256)
    (h4 : x4 < 256) :
    g (x1 ^^^ x2 ^^^ x3 ^^^ x4) = g x1 ^^^ g x2 ^^^ g x3 ^^^ g x4 := by
  rw [glin _ x4 (xor_lt_256 _ _ (xor_lt_256 _ _ h1 h2) h3) h4,
      glin _ x3 (xor_lt_256 _ _ h1 h2) h3, glin _ x2 h1 h2]

set_option maxRecDepth 10000 in
theorem e0_eq : ∀ x < 256, g14 (g2 x) ^^^ g11 x ^^^ g13 x ^^^ g9 (g3 x) = x := by
  decide

set_option maxRecDepth 10000 in
theorem e1_eq : ∀ x < 256, g14 (g3 x) ^^^ g11 (g2 x) ^^^ g13 x ^^^ g9 x = 0 := by
  decide

set_option maxRecDepth 10000 in
theorem e2_eq : ∀ x < 256, g14 x ^^^ g11 (g3 x) ^^^ g13 (g2 x) ^^^ g9 x = 0 := by
  decide

set_option maxRecDepth 10000 in
theorem e3_eq : ∀ x < 256, g14 x ^^^ g11 x ^^^ g13 (g3 x) ^^^ g9 (g2 x) = 0 := by
  decide

theorem invMixRow0 (a b c d : Nat) (ha : a < 256) (hb : b < 256) (hc : c < 256)
    (hd : d < 256) :
    im0 (mc0 a b c d) (mc1 a b c d) (mc2 a b c d) (mc3 a b c d) = a := by
  unfold im0 mc0 mc1 mc2 mc3
  rw [lin4 g14_linear _ _ _ _ (g2_lt a) (g3_lt b hb) hc hd,
      lin4 g11_linear _ _ _ _ ha (g2_lt b) (g3_lt c hc) hd,
      lin4 g13_linear _ _ _ _ ha hb (g2_lt c) (g3_lt d hd),
      lin4 g9_linear _ _ _ _ (g3_lt a ha) hb hc (g2_lt d)]
  calc g14 (g2 a) ^^^ g14 (g3 b) ^^^ g14 c ^^^ g14 d ^^^
        (g11 a ^^^ g11 (g2 b) ^^^ g11 (g3 c) ^^^ g11 d) ^^^
        (g13 a ^^^ g13 b ^^^ g13 (g2 c) ^^^ g13 (g3 d)) ^^^
        (g9 (g3 a) ^^^ g9 b ^^^ g9 c ^^^ g9 (g2 d))
      = (g14 (g2 a) ^^^ g11 a ^^^ g13 a ^^^ g9 (g3 a)) ^^^
        (g14 (g3 b) ^^^ g11 (g2 b) ^^^ g13 b ^^^ g9 b) ^^^
        (g14 c ^^^ g11 (g3 c) ^^^ g13 (g2 c) ^^^ g9 c) ^^^
        (g14 d ^^^ g11 d ^^^ g13 (g3 d) ^^^ g9 (g2 d)) := by ac_rfl
    _ = a := by rw [e0_eq a ha, e1_eq b hb, e2_eq c hc, e3_eq d hd]; simp

theorem invMixRow1 (a b c d : Nat) (ha : a < 256) (hb : b < 256) (hc : c < 256)
    (hd : d < 256) :
    im1 (mc0 a b c d) (mc1 a b c d) (mc2 a b c d) (mc3 a b c d) = b := by
  unfold im1 mc0 mc1 mc2 mc3
  rw [lin4 g9_linear _ _ _ _ (g2_lt a) (g3_lt b hb) hc hd,
      lin4 g14_linear _ _ _ _ ha (g2_lt b) (g3_lt c hc) hd,
      lin4 g11_linear _ _ _ _ ha hb (g2_lt c) (g3_lt d hd),
      lin4 g13_linear _ _ _ _ (g3_lt a ha) hb hc (g2_lt d)]
  calc g9 (g2 a) ^^^ g9 (g3 b) ^^^ g9 c ^^^ g9 d ^^^
        (g14 a ^^^ g14 (g2 b) ^^^ g14 (g3 c) ^^^ g14 d) ^^^
        (g11 a ^^^ g11 b ^^^ g11 (g2 c) ^^^ g11 (g3 d)) ^^^
        (g13 (g3 a) ^^^ g13 b ^^^ g13 c ^^^ g13 (g2 d))
      = (g14 a ^^^ g11 a ^^^ g13 (g3 a) ^^^ g9 (g2 a)) ^^^
        (g14 (g2 b) ^^^ g11 b ^^^ g13 b ^^^ g9 (g3 b)) ^^^
        (g14 (g3 c) ^^^ g11 (g2 c) ^^^ g13 c ^^^ g9 c) ^^^
        (g14 d ^^^ g11 (g3 d) ^^^ g13 (g2 d) ^^^ g9 d) := by ac_rfl
    _ = b := by rw [e3_eq a ha, e0_eq b hb, e1_eq c hc, e2_eq d hd]; simp

theorem invMixRow2 (a b c d : Nat) (ha : a < 256) (hb : b < 256) (hc : c < 256)
    (hd : d < 256) :
    im2 (mc0 a b c d) (mc1 a b c d) (mc2 a b c d) (mc3 a b c d) = c := by
  unfold im2 mc0 mc1 mc2 mc3
  rw [lin4 g13_linear _ _ _ _ (g2_lt a) (g3_lt b hb) hc hd,
      lin4 g9_linear _ _ _ _ ha (g2_lt b) (g3_lt c hc) hd,
      lin4 g14_linear _ _ _ _ ha hb (g2_lt c) (g3_lt d hd),
      lin4 g11_linear _ _ _ _ (g3_lt a ha) hb hc (g2_lt d)]
  calc g13 (g2 a) ^^^ g13 (g3 b) ^^^ g13 c ^^^ g13 d ^^^
        (g9 a ^^^ g9 (g2 b) ^^^ g9 (g3 c) ^^^ g9 d) ^^^
        (g14 a ^^^ g14 b ^^^ g14 (g2 c) ^^^ g14 (g3 d)) ^^^
        (g11 (g3 a) ^^^ g11 b ^^^ g11 c ^^^ g11 (g2 d))
      = (g14 a ^^^ g11 (g3 a) ^^^ g13 (g2 a) ^^^ g9 a) ^^^
        (g14 b ^^^ g11 b ^^^ g13 (g3 b) ^^^ g9 (g2 b)) ^^^
        (g14 (g2 c) ^^^ g11 c ^^^ g13 c ^^^ g9 (g3 c)) ^^^
        (g14 (g3 d) ^^^ g11 (g2 d) ^^^ g13 d ^^^ g9 d) := by ac_rfl
    _ = c := by rw [e2_eq a ha, e3_eq b hb, e0_eq c hc, e1_eq d hd]; simp

theorem invMixRow3 (a b c d : Nat) (ha : a < 256) (hb : b < 256) (hc : c < 256)
    (hd : d < 256) :
    im3 (mc0 a b c d) (mc1 a b c d) (mc2 a b c d) (mc3 a b c d) = d := by
  unfold im3 mc0 mc1 mc2 mc3
  rw [lin4 g11_linear _ _ _ _ (g2_lt a) (g3_lt b hb) hc hd,
      lin4 g13_linear _ _ _ _ ha (g2_lt b) (g3_lt c hc) hd,
      lin4 g9_linear _ _ _ _ ha hb (g2_lt c) (g3_lt d hd),
      lin4 g14_linear _ _ _ _ (g3_lt a ha) hb hc (g2_lt d)]
  calc g11 (g2 a) ^^^ g11 (g3 b) ^^^ g11 c ^^^ g11 d ^^^
        (g13 a ^^^ g13 (g2 b) ^^^ g13 (g3 c) ^^^ g13 d) ^^^
        (g9 a ^^^ g9 b ^^^ g9 (g2 c) ^^^ g9 (g3 d)) ^^^
        (g14 (g3 a) ^^^ g14 b ^^^ g14 c ^^^ g14 (g2 d))
      = (g14 (g3 a) ^^^ g11 (g2 a) ^^^ g13 a ^^^ g9 a) ^^^
        (g14 b ^^^ g11 (g3 b) ^^^ g13 (g2 b) ^^^ g9 b) ^^^
        (g14 c ^^^ g11 c ^^^ g13 (g3 c) ^^^ g9 (g2 c)) ^^^
        (g14 (g2 d) ^^^ g11 d ^^^ g13 d ^^^ g9 (g3 d)) := by ac_rfl
    _ = d := by rw [e1_eq a ha, e2_eq b hb, e3_eq c hc, e0_eq d hd]; simp

end Vault


/- ------------------------------------------------------------------
Vault lemmas II: the AES round operations invert each other on byte
states, and preserve byte bounds.
------------------------------------------------------------------- -/

namespace Vault

set_option maxRecDepth 10000 in
theorem sboxTable_length : sboxTable.length = 256 := by decide

set_option maxRecDepth 10000 in
theorem invSboxTable_length : invSboxTable.length = 256 := by decide

set_option maxRecDepth 10000 in
theorem sboxB_lt (b : Nat) : sboxB b < 256 := by
  by_cases h : b < 256
  · exact (by decide : ∀ x < 256, sboxB x < 256) b h
  · unfold sboxB
    rw [List.getD_eq_default]
    · norm_num
    · rw [sboxTable_length]; omega

set_option maxRecDepth 10000 in
theorem invSboxB_lt (b : Nat) : invSboxB b < 256 := by
  by_cases h : b < 256
  · exact (by decide : ∀ x < 256, invSboxB x < 256) b h
  · unfold invSboxB
    rw [List.getD_eq_default]
    · norm_num
    · rw [invSboxTable_length]; omega

set_option maxRecDepth 10000 in
theorem sbox_inv : ∀ b < 256, invSboxB (sboxB b) = b := by decide

theorem getD_lt : ∀ (bs : List Nat), BytesOk bs → ∀ i, bs.getD i 0 < 256
  | [], _, i => by simp [List.getD]
  | b :: bs, h, 0 => by simpa using h b (List.mem_cons_self _ _)
  | b :: bs, h, i + 1 => by
    simpa using getD_lt bs (fun x hx => h x (List.mem_cons_of_mem _ hx)) i

theorem bytesToState_ok (bs : List Nat) (h : BytesOk bs) :
    StateOk (bytesToState bs) :=
  ⟨getD_lt bs h 0, getD_lt bs h 1, getD_lt bs h 2, getD_lt bs h 3,
   getD_lt bs h 4, getD_lt bs h 5, getD_lt bs h 6, getD_lt bs h 7,
   getD_lt bs h 8, getD_lt bs h 9, getD_lt bs h 10, getD_lt bs h 11,
   getD_lt bs h 12, getD_lt bs h 13, getD_lt bs h 14, getD_lt bs h 15⟩

theorem stateToBytes_ok (st : AesState) (h : StateOk st) :
    BytesOk (stateToBytes st) := by
  obtain ⟨h0, h1, h2, h3, h4, h5, h6, h7, h8, h9, h10, h11, h12, h13, h14, h15⟩ := h
  intro b hb
  simp only [stateToBytes, List.mem_cons, List.not_mem_nil, or_false] at hb
  rcases hb with rfl | rfl | rfl | rfl | rfl | rfl | rfl | rfl | rfl | rfl | rfl |
    rfl | rfl | rfl | rfl | rfl <;> assumption

theorem stateToBytes_length (st : AesState) : (stateToBytes st).length = 16 := by
  simp [stateToBytes]

theorem zeroState_ok : StateOk zeroState := by
  refine ⟨?_, ?_, ?_, ?_, ?_, ?_, ?_, ?_, ?_, ?_, ?_, ?_, ?_, ?_, ?_, ?_⟩ <;> norm_num [zeroState]

theorem subBytes_ok (st : AesState) : StateOk (subBytes st) :=
  ⟨sboxB_lt _, sboxB_lt _, sboxB_lt _, sboxB_lt _, sboxB_lt _, sboxB_lt _,
   sboxB_lt _, sboxB_lt _, sboxB_lt _, sboxB_lt _, sboxB_lt _, sboxB_lt _,
   sboxB_lt _, sboxB_lt _, sboxB_lt _, sboxB_lt _⟩

theorem invSubBytes_ok (st : AesState) : StateOk (invSubBytes st) :=
  ⟨invSboxB_lt _, invSboxB_lt _, invSboxB_lt _, invSboxB_lt _, invSboxB_lt _,
   invSboxB_lt _, invSboxB_lt _, invSboxB_lt _, invSboxB_lt _, invSboxB_lt _,
   invSboxB_lt _, invSboxB_lt _, invSboxB_lt _, invSboxB_lt _, invSboxB_lt _,
   invSboxB_lt _⟩

theorem shiftRows_ok (st : AesState) (h : StateOk st) : StateOk (shiftRows st) := by
  obtain ⟨h0, h1, h2, h3, h4, h5, h6, h7, h8, h9, h10, h11, h12, h13, h14, h15⟩ := h
  exact ⟨h0, h5, h10, h15, h4, h9, h14, h3, h8, h13, h2, h7, h12, h1, h6, h11⟩

theorem mc0_lt (a b c d : Nat) (hc : c < 256) (hd : d < 256) (hb : b < 256) :
    mc0 a b c d < 256 :=
  xor_lt_256 _ _ (xor_lt_256 _ _ (xor_lt_256 _ _ (g2_lt a) (g3_lt b hb)) hc) hd

theorem mc1_lt (a b c d : Nat) (ha : a < 256) (hd : d < 256) (hc : c < 256) :
    mc1 a b c d < 256 :=
  xor_lt_256 _ _ (xor_lt_256 _ _ (xor_lt_256 _ _ ha (g2_lt b)) (g3_lt c hc)) hd

theorem mc2_lt (a b c d : Nat) (ha : a < 256) (hb : b < 256) (hd : d < 256) :
    mc2 a b c d < 256 :=
  xor_lt_256 _ _ (xor_lt_256 _ _ (xor_lt_256 _ _ ha hb) (g2_lt c)) (g3_lt d hd)

theorem mc3_lt (a b c d : Nat) (ha : a < 256) (hb : b < 256) (hc : c < 256) :
    mc3 a b c d < 256 :=
  xor_lt_256 _ _ (xor_lt_256 _ _ (xor_lt_256 _ _ (g3_lt a ha) hb) hc) (g2_lt d)

theorem mixColumns_ok (st : AesState) (h : StateOk st) : StateOk (mixColumns st) := by
  obtain ⟨h0, h1, h2, h3, h4, h5, h6, h7, h8, h9, h10, h11, h12, h13, h14, h15⟩ := h
  exact ⟨mc0_lt _ _ _ _ h2 h3 h1, mc1_lt _ _ _ _ h0 h3 h2, mc2_lt _ _ _ _ h0 h1 h3,
    mc3_lt _ _ _ _ h0 h1 h2,
    mc0_lt _ _ _ _ h6 h7 h5, mc1_lt _ _ _ _ h4 h7 h6, mc2_lt _ _ _ _ h4 h5 h7,
    mc3_lt _ _ _ _ h4 h5 h6,
    mc0_lt _ _ _ _ h10 h11 h9, mc1_lt _ _ _ _ h8 h11 h10, mc2_lt _ _ _ _ h8 h9 h11,
    mc3_lt _ _ _ _ h8 h9 h10,
    mc0_lt _ _ _ _ h14 h15 h13, mc1_lt _ _ _ _ h12 h15 h14, mc2_lt _ _ _ _ h12 h13 h15,
    mc3_lt _ _ _ _ h12 h13 h14⟩

theorem addRoundKey_ok (st k : AesState) (h : StateOk st) (hk : StateOk k) :
    StateOk (addRoundKey st k) := by
  obtain ⟨h0, h1, h2, h3, h4, h5, h6, h7, h8, h9, h10, h11, h12, h13, h14, h15⟩ := h
  obtain ⟨g0, g1, g2, g3, g4, g5, g6, g7, g8, g9, g10, g11, g12, g13, g14, g15⟩ := hk
  exact ⟨xor_lt_256 _ _ h0 g0, xor_lt_256 _ _ h1 g1, xor_lt_256 _ _ h2 g2,
    xor_lt_256 _ _ h3 g3, xor_lt_256 _ _ h4 g4, xor_lt_256 _ _ h5 g5,
    xor_lt_256 _ _ h6 g6, xor_lt_256 _ _ h7 g7, xor_lt_256 _ _ h8 g8,
    xor_lt_256 _ _ h9 g9, xor_lt_256 _ _ h10 g10, xor_lt_256 _ _ h11 g11,
    xor_lt_256 _ _ h12 g12, xor_lt_256 _ _ h13 g13, xor_lt_256 _ _ h14 g14,
    xor_lt_256 _ _ h15 g15⟩

theorem invShift_shift (st : AesState) : invShiftRows (shiftRows st) = st := by
  cases st
  rfl

theorem invSub_sub (st : AesState) (h : StateOk st) : invSubBytes (subBytes st) = st := by
  cases st
  obtain ⟨h0, h1, h2, h3, h4, h5, h6, h7, h8, h9, h10, h11, h12, h13, h14, h15⟩ := h
  simp only [subBytes, invSubBytes, AesState.mk.injEq]
  exact ⟨sbox_inv _ h0, sbox_inv _ h1, sbox_inv _ h2, sbox_inv _ h3,
    sbox_inv _ h4, sbox_inv _ h5, sbox_inv _ h6, sbox_inv _ h7,
    sbox_inv _ h8, sbox_inv _ h9, sbox_inv _ h10, sbox_inv _ h11,
    sbox_inv _ h12, sbox_inv _ h13, sbox_inv _ h14, sbox_inv _ h15⟩

theorem addRK_cancel (st k : AesState) : addRoundKey (addRoundKey st k) k = st := by
  cases st
  cases k
  simp [addRoundKey, Nat.xor_cancel_right]

theorem invMix_mix (st : AesState) (h : StateOk st) :
    invMixColumns (mixColumns st) = st := by
  cases st
  obtain ⟨h0, h1, h2, h3, h4, h5, h6, h7, h8, h9, h10, h11, h12, h13, h14, h15⟩ := h
  simp only [mixColumns, invMixColumns, AesState.mk.injEq]
  exact ⟨invMixRow0 _ _ _ _ h0 h1 h2 h3, invMixRow1 _ _ _ _ h0 h1 h2 h3,
    invMixRow2 _ _ _ _ h0 h1 h2 h3, invMixRow3 _ _ _ _ h0 h1 h2 h3,
    invMixRow0 _ _ _ _ h4 h5 h6 h7, invMixRow1 _ _ _ _ h4 h5 h6 h7,
    invMixRow2 _ _ _ _ h4 h5 h6 h7, invMixRow3 _ _ _ _ h4 h5 h6 h7,
    invMixRow0 _ _ _ _ h8 h9 h10 h11, invMixRow1 _ _ _ _ h8 h9 h10 h11,
    invMixRow2 _ _ _ _ h8 h9 h10 h11, invMixRow3 _ _ _ _ h8 h9 h10 h11,
    invMixRow0 _ _ _ _ h12 h13 h14 h15, invMixRow1 _ _ _ _ h12 h13 h14 h15,
    invMixRow2 _ _ _ _ h12 h13 h14 h15, invMixRow3 _ _ _ _ h12 h13 h14 h15⟩

theorem decMid_append (xs ys : List AesState) :
    ∀ st, decMid (xs ++ ys) st = decMid ys (decMid xs st) := by
  induction xs with
  | nil => intro st; rfl
  | cons k ks ih => intro st; simp only [List.cons_append, decMid]; exact ih _

theorem midRun_ok (mid : List AesState) :
    ∀ st, StateOk st → (∀ k ∈ mid, StateOk k) → StateOk (midRun mid st) := by
  induction mid with
  | nil => intro st h _; exact h
  | cons k ks ih =>
    intro st h hks
    simp only [midRun]
    exact ih _ (addRoundKey_ok _ _ (mixColumns_ok _ (shiftRows_ok _ (subBytes_ok st)))
      (hks k (List.mem_cons_self _ _))) (fun x hx => hks x (List.mem_cons_of_mem _ hx))

theorem decMid_midRun (mid : List AesState) :
    ∀ st, StateOk st → (∀ k ∈ mid, StateOk k) →
      decMid mid.reverse (shiftRows (subBytes (midRun mid st))) =
        shiftRows (subBytes st) := by
  induction mid with
  | nil => intro st _ _; rfl
  | cons k ks ih =>
    intro st hst hks
    have hkOk : StateOk k := hks k (List.mem_cons_self _ _)
    have hksOk : ∀ x ∈ ks, StateOk x := fun x hx => hks x (List.mem_cons_of_mem _ hx)
    have hmix : StateOk (mixColumns (shiftRows (subBytes st))) :=
      mixColumns_ok _ (shiftRows_ok _ (subBytes_ok st))
    have hst' : StateOk (addRoundKey (mixColumns (shiftRows (subBytes st))) k) :=
      addRoundKey_ok _ _ hmix hkOk
    rw [List.reverse_cons, decMid_append]
    simp only [midRun]
    rw [ih _ hst' hksOk]
    simp only [decMid]
    rw [invShift_shift, invSub_sub _ hst', addRK_cancel, invMix_mix _ (shiftRows_ok _ (subBytes_ok st))]

theorem aesDecryptBlockKeys_encrypt (k0 klast : AesState) (mid : List AesState)
    (pt : AesState) (hpt : StateOk pt) (hk0 : StateOk k0)
    (hmid : ∀ k ∈ mid, StateOk k) :
    aesDecryptBlockKeys k0 mid klast (aesEncryptBlockKeys k0 mid klast pt) = pt := by
  unfold aesEncryptBlockKeys aesDecryptBlockKeys
  rw [addRK_cancel, decMid_midRun mid _ (addRoundKey_ok _ _ hpt hk0) hmid,
      invShift_shift, invSub_sub _ (addRoundKey_ok _ _ hpt hk0), addRK_cancel]

end Vault


/- ------------------------------------------------------------------
Vault lemmas III: key-schedule byte bounds, the AES-256 block round
trip, and the CBC round trip.
------------------------------------------------------------------- -/

namespace Vault

theorem bytesOk_nil : BytesOk [] := fun b hb => absurd hb (List.not_mem_nil b)

theorem bytesOk_append (a b : List Nat) (ha : BytesOk a) (hb : BytesOk b) :
    BytesOk (a ++ b) := by
  intro x hx
  rcases List.mem_append.mp hx with h | h
  · exact ha x h
  · exact hb x h

theorem getD_mem_ok {α : Type} (P : α → Prop) (dflt : α) (hd : P dflt) :
    ∀ (l : List α), (∀ x ∈ l, P x) → ∀ i, P (l.getD i dflt)
  | [], _, i => by simpa [List.getD] using hd
  | x :: l, h, 0 => by simpa using h x (List.mem_cons_self _ _)
  | x :: l, h, i + 1 => by
    simpa using getD_mem_ok P dflt hd l (fun y hy => h y (List.mem_cons_of_mem _ hy)) i

theorem xorWord_ok : ∀ (a b : List Nat), BytesOk a → BytesOk b → BytesOk (xorWord a b)
  | [], _, _, _ => by intro x hx; simp [xorWord] at hx
  | _ :: _, [], _, _ => by intro x hx; simp [xorWord] at hx
  | a :: as, b :: bs, ha, hb => by
    intro x hx
    simp only [xorWord, List.zipWith_cons_cons, List.mem_cons] at hx
    rcases hx with rfl | hx
    · exact xor_lt_256 _ _ (ha a (List.mem_cons_self _ _)) (hb b (List.mem_cons_self _ _))
    · exact xorWord_ok as bs (fun y hy => ha y (List.mem_cons_of_mem _ hy))
        (fun y hy => hb y (List.mem_cons_of_mem _ hy)) x hx

theorem subWord_ok (w : List Nat) : BytesOk (subWord w) := by
  intro x hx
  simp only [subWord, List.mem_map] at hx
  obtain ⟨y, _, rfl⟩ := hx
  exact sboxB_lt y

theorem rotWord_ok (w : List Nat) (h : BytesOk w) : BytesOk (rotWord w) := by
  rcases w with _ | ⟨a, _ | ⟨b, _ | ⟨c, _ | ⟨d, _ | ⟨e, w⟩⟩⟩⟩⟩ <;>
    first
      | simpa [rotWord] using h
      | (intro x hx
         simp only [rotWord, List.mem_cons, List.not_mem_nil, or_false] at hx
         rcases hx with rfl | rfl | rfl | rfl <;> exact h _ (by simp))

theorem rcon_ok : BytesOk rcon := by
  show ∀ b ∈ rcon, b < 256
  decide

theorem rconWord_ok (i : Nat) : BytesOk [rcon.getD i 0, 0, 0, 0] := by
  intro x hx
  simp only [List.mem_cons, List.not_mem_nil, or_false] at hx
  rcases hx with rfl | rfl | rfl | rfl
  · exact getD_lt rcon rcon_ok i
  all_goals norm_num

theorem ksNext_ok (ws : List (List Nat)) (h : ∀ w ∈ ws, BytesOk w) :
    BytesOk (ksNext ws) := by
  unfold ksNext
  have hprev : BytesOk (ws.getD (ws.length - 1) []) :=
    getD_mem_ok _ _ bytesOk_nil ws h _
  have hprev8 : BytesOk (ws.getD (ws.length - 8) []) :=
    getD_mem_ok _ _ bytesOk_nil ws h _
  apply xorWord_ok _ _ hprev8
  split
  · exact xorWord_ok _ _ (subWord_ok _) (rconWord_ok _)
  · split
    · exact subWord_ok _
    · exact hprev

theorem ksAux_ok : ∀ (n : Nat) (ws : List (List Nat)),
    (∀ w ∈ ws, BytesOk w) → ∀ w ∈ ksAux n ws, BytesOk w := by
  intro n
  induction n with
  | zero => intro ws h w hw; exact h w hw
  | succ n ih =>
    intro ws h w hw
    refine ih (ws ++ [ksNext ws]) ?_ w hw
    intro x hx
    rcases List.mem_append.mp hx with h1 | h1
    · exact h x h1
    · simp only [List.mem_singleton] at h1
      subst h1
      exact ksNext_ok ws h

theorem words4_ok : ∀ (n : Nat) (bs : List Nat), bs.length ≤ n → BytesOk bs →
    ∀ w ∈ words4 bs, BytesOk w := by
  intro n
  induction n with
  | zero =>
    intro bs hlen hok w hw
    rcases bs with _ | ⟨a, bs⟩
    · simp [words4] at hw
    · simp at hlen
  | succ n ih =>
    intro bs hlen hok w hw
    rcases bs with _ | ⟨a, bs⟩; · simp [words4] at hw
    rcases bs with _ | ⟨b, bs⟩; · simp [words4] at hw
    rcases bs with _ | ⟨c, bs⟩; · simp [words4] at hw
    rcases bs with _ | ⟨d, bs⟩; · simp [words4] at hw
    simp only [words4, List.mem_cons] at hw
    rcases hw with rfl | hw
    · intro x hx
      simp only [List.mem_cons, List.not_mem_nil, or_false] at hx
      rcases hx with rfl | rfl | rfl | rfl <;> exact hok _ (by simp)
    · refine ih bs ?_ ?_ w hw
      · simp only [List.length_cons] at hlen; omega
      · intro x hx
        exact hok x (by simp [hx])

theorem keyWords_ok (kb : List Nat) (h : BytesOk kb) :
    ∀ w ∈ keyWords kb, BytesOk w :=
  ksAux_ok 52 _ (words4_ok kb.length kb le_rfl h)

theorem keyStates_ok : ∀ (n : Nat) (ws : List (List Nat)), ws.length ≤ n →
    (∀ w ∈ ws, BytesOk w) → ∀ st ∈ keyStates ws, StateOk st := by
  intro n
  induction n with
  | zero =>
    intro ws hlen hok st hst
    rcases ws with _ | ⟨w0, ws⟩
    · simp [keyStates] at hst
    · simp at hlen
  | succ n ih =>
    intro ws hlen hok st hst
    rcases ws with _ | ⟨w0, ws⟩; · simp [keyStates] at hst
    rcases ws with _ | ⟨w1, ws⟩; · simp [keyStates] at hst
    rcases ws with _ | ⟨w2, ws⟩; · simp [keyStates] at hst
    rcases ws with _ | ⟨w3, ws⟩; · simp [keyStates] at hst
    simp only [keyStates, List.mem_cons] at hst
    rcases hst with rfl | hst
    · refine bytesToState_ok _ ?_
      intro x hx
      simp only [List.append_assoc, List.mem_append] at hx
      rcases hx with hx | hx | hx | hx
      · exact hok w0 (by simp) x hx
      · exact hok w1 (by simp) x hx
      · exact hok w2 (by simp) x hx
      · exact hok w3 (by simp) x hx
    · refine ih ws ?_ ?_ st hst
      · simp only [List.length_cons] at hlen; omega
      · intro x hx
        exact hok x (by simp [hx])

theorem roundKeys_ok (kb : List Nat) (h : BytesOk kb) :
    ∀ st ∈ roundKeys kb, StateOk st :=
  keyStates_ok (keyWords kb).length _ le_rfl (keyWords_ok kb h)

theorem stateGetD_ok (l : List AesState) (h : ∀ s ∈ l, StateOk s) (i : Nat) :
    StateOk (l.getD i zeroState) :=
  getD_mem_ok _ _ zeroState_ok l h i

theorem aesEncryptBlock_ok (kb : List Nat) (hkb : BytesOk kb) (pt : AesState)
    (hpt : StateOk pt) : StateOk (aesEncryptBlock kb pt) := by
  unfold aesEncryptBlock aesEncryptBlockKeys
  have hrk := roundKeys_ok kb hkb
  refine addRoundKey_ok _ _ (shiftRows_ok _ (subBytes_ok _)) (stateGetD_ok _ hrk 14)
  -- side goal closed above; remaining: none

theorem aesDecryptBlock_aesEncryptBlock (kb : List Nat) (hkb : BytesOk kb)
    (pt : AesState) (hpt : StateOk pt) :
    aesDecryptBlock kb (aesEncryptBlock kb pt) = pt := by
  unfold aesEncryptBlock aesDecryptBlock
  have hrk := roundKeys_ok kb hkb
  refine aesDecryptBlockKeys_encrypt _ _ _ _ hpt (stateGetD_ok _ hrk 0) ?_
  intro k hk
  exact hrk k (List.mem_of_mem_drop (List.mem_of_mem_take hk))

theorem bytesToState_stateToBytes (st : AesState) :
    bytesToState (stateToBytes st) = st := by
  cases st
  rfl

theorem stateToBytes_bytesToState (bs : List Nat) (h : bs.length = 16) :
    stateToBytes (bytesToState bs) = bs := by
  rcases bs with _ | ⟨x0, bs⟩; · simp at h
  rcases bs with _ | ⟨x1, bs⟩; · simp at h
  rcases bs with _ | ⟨x2, bs⟩; · simp at h
  rcases bs with _ | ⟨x3, bs⟩; · simp at h
  rcases bs with _ | ⟨x4, bs⟩; · simp at h
  rcases bs with _ | ⟨x5, bs⟩; · simp at h
  rcases bs with _ | ⟨x6, bs⟩; · simp at h
  rcases bs with _ | ⟨x7, bs⟩; · simp at h
  rcases bs with _ | ⟨x8, bs⟩; · simp at h
  rcases bs with _ | ⟨x9, bs⟩; · simp at h
  rcases bs with _ | ⟨x10, bs⟩; · simp at h
  rcases bs with _ | ⟨x11, bs⟩; · simp at h
  rcases bs with _ | ⟨x12, bs⟩; · simp at h
  rcases bs with _ | ⟨x13, bs⟩; · simp at h
  rcases bs with _ | ⟨x14, bs⟩; · simp at h
  rcases bs with _ | ⟨x15, bs⟩; · simp at h
  rcases bs with _ | ⟨x16, bs⟩
  · rfl
  · simp at h

theorem xorBytes_ok (a b : List Nat) (ha : BytesOk a) (hb : BytesOk b) :
    BytesOk (xorBytes a b) :=
  xorWord_ok a b ha hb

theorem xorBytes_length (a b : List Nat) :
    (xorBytes a b).length = min a.length b.length := by
  simp [xorBytes]

theorem xorBytes_cancel : ∀ (a b : List Nat), b.length ≤ a.length →
    xorBytes a (xorBytes a b) = b
  | _, [], _ => by simp [xorBytes]
  | [], _ :: _, h => by simp at h
  | a :: as, b :: bs, h => by
    simp only [xorBytes, List.zipWith_cons_cons]
    rw [← Nat.xor_assoc, Nat.xor_self, Nat.zero_xor]
    have := xorBytes_cancel as bs (by simpa using h)
    simp only [xorBytes] at this
    rw [this]

theorem cbc_roundtrip (kb : List Nat) (hkb : BytesOk kb) :
    ∀ (blocks : List (List Nat)) (prev : List Nat),
      (∀ b ∈ blocks, BytesOk b ∧ b.length = 16) → BytesOk prev →
      prev.length = 16 →
      cbcDecryptBlocks kb prev (cbcEncryptBlocks kb prev blocks) = blocks := by
  intro blocks
  induction blocks with
  | nil => intro prev _ _ _; rfl
  | cons b bs ih =>
    intro prev hbs hprev hplen
    obtain ⟨hbok, hblen⟩ := hbs b (List.mem_cons_self _ _)
    have hxok : BytesOk (xorBytes prev b) := xorBytes_ok _ _ hprev hbok
    have hxst : StateOk (bytesToState (xorBytes prev b)) := bytesToState_ok _ hxok
    have hencok : StateOk (aesEncryptBlock kb (bytesToState (xorBytes prev b))) :=
      aesEncryptBlock_ok kb hkb _ hxst
    simp only [cbcEncryptBlocks, cbcDecryptBlocks]
    rw [bytesToState_stateToBytes,
        aesDecryptBlock_aesEncryptBlock kb hkb _ hxst,
        stateToBytes_bytesToState _ (by rw [xorBytes_length, hplen, hblen]; rfl),
        xorBytes_cancel prev b (by omega)]
    rw [ih _ (fun x hx => hbs x (List.mem_cons_of_mem _ hx))
        (stateToBytes_ok _ hencok) (stateToBytes_length _)]

end Vault


/- ------------------------------------------------------------------
Vault lemmas IV: chunking, padding, Base64 and UTF-8 round trips.
------------------------------------------------------------------- -/

namespace Vault

theorem bytesOk_flatten (l : List (List Nat)) (h : ∀ b ∈ l, BytesOk b) :
    BytesOk l.flatten := by
  intro x hx
  obtain ⟨b, hb, hxb⟩ := List.mem_flatten.mp hx
  exact h b hb x hxb

theorem flatten_chunks16_of_le : ∀ (n : Nat) (bs : List Nat), bs.length ≤ n →
    (chunks16 bs).flatten = bs := by
  intro n
  induction n with
  | zero =>
    intro bs h
    rcases bs with _ | ⟨b, bs⟩
    · rfl
    · simp at h
  | succ n ih =>
    intro bs h
    rcases bs with _ | ⟨b0, bs⟩
    · rfl
    rcases bs with _ | ⟨b1, bs⟩
    · rw [show chunks16 [b0] = [[b0]] from rfl]
      simp
    rcases bs with _ | ⟨b2, bs⟩
    · rw [show chunks16 [b0, b1] = [[b0, b1]] from rfl]
      simp
    rcases bs with _ | ⟨b3, bs⟩
    · rw [show chunks16 [b0, b1, b2] = [[b0, b1, b2]] from rfl]
      simp
    rcases bs with _ | ⟨b4, bs⟩
    · rw [show chunks16 [b0, b1, b2, b3] = [[b0, b1, b2, b3]] from rfl]
      simp
    rcases bs with _ | ⟨b5, bs⟩
    · rw [show chunks16 [b0, b1, b2, b3, b4] = [[b0, b1, b2, b3, b4]] from rfl]
      simp
    rcases bs with _ | ⟨b6, bs⟩
    · rw [show chunks16 [b0, b1, b2, b3, b4, b5] = [[b0, b1, b2, b3, b4, b5]] from rfl]
      simp
    rcases bs with _ | ⟨b7, bs⟩
    · rw [show chunks16 [b0, b1, b2, b3, b4, b5, b6] = [[b0, b1, b2, b3, b4, b5, b6]] from rfl]
      simp
    rcases bs with _ | ⟨b8, bs⟩
    · rw [show chunks16 [b0, b1, b2, b3, b4, b5, b6, b7] = [[b0, b1, b2, b3, b4, b5, b6, b7]] from rfl]
      simp
    rcases bs with _ | ⟨b9, bs⟩
    · rw [show chunks16 [b0, b1, b2, b3, b4, b5, b6, b7, b8] = [[b0, b1, b2, b3, b4, b5, b6, b7, b8]] from rfl]
      simp
    rcases bs with _ | ⟨b10, bs⟩
    · rw [show chunks16 [b0, b1, b2, b3, b4, b5, b6, b7, b8, b9] = [[b0, b1, b2, b3, b4, b5, b6, b7, b8, b9]] from rfl]
      simp
    rcases bs with _ | ⟨b11, bs⟩
    · rw [show chunks16 [b0, b1, b2, b3, b4, b5, b6, b7, b8, b9, b10] = [[b0, b1, b2, b3, b4, b5, b6, b7, b8, b9, b10]] from rfl]
      simp
    rcases bs with _ | ⟨b12, bs⟩
    · rw [show chunks16 [b0, b1, b2, b3, b4, b5, b6, b7, b8, b9, b10, b11] = [[b0, b1, b2, b3, b4, b5, b6, b7, b8, b9, b10, b11]] from rfl]
      simp
    rcases bs with _ | ⟨b13, bs⟩
    · rw [show chunks16 [b0, b1, b2, b3, b4, b5, b6, b7, b8, b9, b10, b11, b12] = [[b0, b1, b2, b3, b4, b5, b6, b7, b8, b9, b10, b11, b12]] from rfl]
      simp
    rcases bs with _ | ⟨b14, bs⟩
    · rw [show chunks16 [b0, b1, b2, b3, b4, b5, b6, b7, b8, b9, b10, b11, b12, b13] = [[b0, b1, b2, b3, b4, b5, b6, b7, b8, b9, b10, b11, b12, b13]] from rfl]
      simp
    rcases bs with _ | ⟨b15, bs⟩
    · rw [show chunks16 [b0, b1, b2, b3, b4, b5, b6, b7, b8, b9, b10, b11, b12, b13, b14] = [[b0, b1, b2, b3, b4, b5, b6, b7, b8, b9, b10, b11, b12, b13, b14]] from rfl]
      simp
    rw [show chunks16 (b0 :: b1 :: b2 :: b3 :: b4 :: b5 :: b6 :: b7 :: b8 :: b9 :: b10 :: b11 :: b12 :: b13 :: b14 :: b15 :: bs) = [b0, b1, b2, b3, b4, b5, b6, b7, b8, b9, b10, b11, b12, b13, b14, b15] :: chunks16 bs from rfl,
        List.flatten_cons]
    have hlen : bs.length ≤ n := by
      simp only [List.length_cons] at h
      omega
    rw [ih bs hlen]
    rfl

theorem flatten_chunks16 (bs : List Nat) : (chunks16 bs).flatten = bs :=
  flatten_chunks16_of_le bs.length bs le_rfl

theorem chunks16_blocks_of_le : ∀ (n : Nat) (bs : List Nat), bs.length ≤ n →
    BytesOk bs → bs.length % 16 = 0 →
    ∀ b ∈ chunks16 bs, BytesOk b ∧ b.length = 16 := by
  intro n
  induction n with
  | zero =>
    intro bs h hok hmod b hb
    rcases bs with _ | ⟨x, bs⟩
    · simp [chunks16] at hb
    · simp at h
  | succ n ih =>
    intro bs h hok hmod b hb
    rcases bs with _ | ⟨b0, bs⟩
    · simp [chunks16] at hb
    rcases bs with _ | ⟨b1, bs⟩
    · exfalso
      simp only [List.length_cons, List.length_nil] at hmod
      omega
    rcases bs with _ | ⟨b2, bs⟩
    · exfalso
      simp only [List.length_cons, List.length_nil] at hmod
      omega
    rcases bs with _ | ⟨b3, bs⟩
    · exfalso
      simp only [List.length_cons, List.length_nil] at hmod
      omega
    rcases bs with _ | ⟨b4, bs⟩
    · exfalso
      simp only [List.length_cons, List.length_nil] at hmod
      omega
    rcases bs with _ | ⟨b5, bs⟩
    · exfalso
      simp only [List.length_cons, List.length_nil] at hmod
      omega
    rcases bs with _ | ⟨b6, bs⟩
    · exfalso
      simp only [List.length_cons, List.length_nil] at hmod
      omega
    rcases bs with _ | ⟨b7, bs⟩
    · exfalso
      simp only [List.length_cons, List.length_nil] at hmod
      omega
    rcases bs with _ | ⟨b8, bs⟩
    · exfalso
      simp only [List.length_cons, List.length_nil] at hmod
      omega
    rcases bs with _ | ⟨b9, bs⟩
    · exfalso
      simp only [List.length_cons, List.length_nil] at hmod
      omega
    rcases bs with _ | ⟨b10, bs⟩
    · exfalso
      simp only [List.length_cons, List.length_nil] at hmod
      omega
    rcases bs with _ | ⟨b11, bs⟩
    · exfalso
      simp only [List.length_cons, List.length_nil] at hmod
      omega
    rcases bs with _ | ⟨b12, bs⟩
    · exfalso
      simp only [List.length_cons, List.length_nil] at hmod
      omega
    rcases bs with _ | ⟨b13, bs⟩
    · exfalso
      simp only [List.length_cons, List.length_nil] at hmod
      omega
    rcases bs with _ | ⟨b14, bs⟩
    · exfalso
      simp only [List.length_cons, List.length_nil] at hmod
      omega
    rcases bs with _ | ⟨b15, bs⟩
    · exfalso
      simp only [List.length_cons, List.length_nil] at hmod
      omega
    rw [show chunks16 (b0 :: b1 :: b2 :: b3 :: b4 :: b5 :: b6 :: b7 :: b8 :: b9 :: b10 :: b11 :: b12 :: b13 :: b14 :: b15 :: bs) = [b0, b1, b2, b3, b4, b5, b6, b7, b8, b9, b10, b11, b12, b13, b14, b15] :: chunks16 bs from rfl] at hb
    simp only [List.mem_cons] at hb
    rcases hb with rfl | hb
    · refine ⟨?_, rfl⟩
      intro x hx
      simp only [List.mem_cons, List.not_mem_nil, or_false] at hx
      rcases hx with rfl | rfl | rfl | rfl | rfl | rfl | rfl | rfl | rfl | rfl | rfl | rfl | rfl | rfl | rfl | rfl <;>
        exact hok _ (by simp)
    · refine ih bs ?_ ?_ ?_ b hb
      · simp only [List.length_cons] at h
        omega
      · intro x hx
        exact hok x (by simp [hx])
      · simp only [List.length_cons] at hmod ⊢
        omega

theorem chunks16_blocks (bs : List Nat) (hok : BytesOk bs)
    (hmod : bs.length % 16 = 0) :
    ∀ b ∈ chunks16 bs, BytesOk b ∧ b.length = 16 :=
  chunks16_blocks_of_le bs.length bs le_rfl hok hmod

theorem cbcEncryptBlocks_blocks (kb : List Nat) (hkb : BytesOk kb) :
    ∀ (blocks : List (List Nat)) (prev : List Nat),
      (∀ b ∈ blocks, BytesOk b) →  BytesOk prev →
      ∀ c ∈ cbcEncryptBlocks kb prev blocks, BytesOk c ∧ c.length = 16 := by
  intro blocks
  induction blocks with
  | nil => intro prev _ _ c hc; simp [cbcEncryptBlocks] at hc
  | cons b bs ih =>
    intro prev hbs hprev c hc
    have hbok : BytesOk b := hbs b (List.mem_cons_self _ _)
    have hst : StateOk (aesEncryptBlock kb (bytesToState (xorBytes prev b))) :=
      aesEncryptBlock_ok kb hkb _ (bytesToState_ok _ (xorBytes_ok _ _ hprev hbok))
    simp only [cbcEncryptBlocks, List.mem_cons] at hc
    rcases hc with rfl | hc
    · exact ⟨stateToBytes_ok _ hst, stateToBytes_length _⟩
    · exact ih _ (fun x hx => hbs x (List.mem_cons_of_mem _ hx))
        (stateToBytes_ok _ hst) c hc

theorem pkcs7Pad_ok (bs : List Nat) (h : BytesOk bs) : BytesOk (pkcs7Pad bs) := by
  intro x hx
  simp only [pkcs7Pad] at hx
  rcases List.mem_append.mp hx with h1 | h1
  · exact h x h1
  · have := List.eq_of_mem_replicate h1
    subst this
    omega

theorem pkcs7Pad_mod (bs : List Nat) : (pkcs7Pad bs).length % 16 = 0 := by
  simp only [pkcs7Pad, List.length_append, List.length_replicate]
  omega

theorem getLast?_append_replicate (bs : List Nat) (n a : Nat) (h : 1 ≤ n) :
    (bs ++ List.replicate n a).getLast? = some a := by
  rcases n with _ | m
  · omega
  · rw [List.replicate_succ' m a, ← List.append_assoc]
    exact List.getLast?_concat _

theorem pkcs7_unpad_pad (bs : List Nat) : pkcs7UnpadNoCheck (pkcs7Pad bs) = bs := by
  simp only [pkcs7Pad, pkcs7UnpadNoCheck]
  have h1 : 1 ≤ 16 - bs.length % 16 := by omega
  rw [getLast?_append_replicate _ _ _ h1]
  simp only [Option.getD_some, List.length_append, List.length_replicate]
  rw [List.take_left' (by omega)]

end Vault


/- ------------------------------------------------------------------
Vault lemmas V: Base64 and UTF-8 round trips, key-derivation byte
bounds.
------------------------------------------------------------------- -/

namespace Vault

set_option maxRecDepth 10000 in
theorem b64Val_b64Char : ∀ v, v < 64 → b64Val (b64Char v) = some v := by decide

set_option maxRecDepth 10000 in
theorem b64Char_ne_pad : ∀ v, v < 64 → ¬(b64Char v = Char.ofNat 61) := by decide

theorem b64_roundtrip : ∀ (bs : List Nat), BytesOk bs → b64Decode (b64Encode bs) = some bs
  | [], _ => rfl
  | [a], h => by
    have ha : a < 256 := h a (by simp)
    have e1 := b64Val_b64Char (a / 4) (by omega)
    have e2 := b64Val_b64Char (a % 4 * 16) (by omega)
    simp only [b64Encode, b64Decode, e1, e2]
    rw [if_pos (by decide)]
    rw [if_pos ⟨by decide, trivial⟩]
    simp only [Option.some.injEq, List.cons.injEq, and_true]
    omega
  | [a, b], h => by
    have ha : a < 256 := h a (by simp)
    have hb : b < 256 := h b (by simp)
    have e1 := b64Val_b64Char (a / 4) (by omega)
    have e2 := b64Val_b64Char (a % 4 * 16 + b / 16) (by omega)
    have e3 := b64Val_b64Char (b % 16 * 4) (by omega)
    simp only [b64Encode, b64Decode, e1, e2]
    rw [if_neg (b64Char_ne_pad _ (by omega))]
    simp only [e3]
    have h1 : a / 4 * 4 + (a % 4 * 16 + b / 16) / 16 = a := by omega
    have h2 : (a % 4 * 16 + b / 16) % 16 * 16 + b % 16 * 4 / 4 = b := by omega
    rw [h1, h2]
    exact if_pos trivial
  | a :: b :: c :: d :: rest, h => by
    have ha : a < 256 := h a (by simp)
    have hb : b < 256 := h b (by simp)
    have hc : c < 256 := h c (by simp)
    have e1 := b64Val_b64Char (a / 4) (by omega)
    have e2 := b64Val_b64Char (a % 4 * 16 + b / 16) (by omega)
    have e3 := b64Val_b64Char (b % 16 * 4 + c / 64) (by omega)
    have e4 := b64Val_b64Char (c % 64) (by omega)
    have ih := b64_roundtrip (d :: rest)
      (fun x hx => h x (by simp [List.mem_cons] at hx ⊢; tauto))
    simp only [b64Encode, b64Decode, e1, e2]
    rw [if_neg (b64Char_ne_pad _ (by omega))]
    simp only [e3]
    rw [if_neg (b64Char_ne_pad _ (by omega))]
    simp only [e4, ih, Option.map_some', Option.some.injEq, List.cons.injEq, and_true]
    refine ⟨by omega, by omega, by omega⟩
  | [a, b, c], h => by
    have ha : a < 256 := h a (by simp)
    have hb : b < 256 := h b (by simp)
    have hc : c < 256 := h c (by simp)
    have e1 := b64Val_b64Char (a / 4) (by omega)
    have e2 := b64Val_b64Char (a % 4 * 16 + b / 16) (by omega)
    have e3 := b64Val_b64Char (b % 16 * 4 + c / 64) (by omega)
    have e4 := b64Val_b64Char (c % 64) (by omega)
    simp only [b64Encode, b64Decode, e1, e2]
    rw [if_neg (b64Char_ne_pad _ (by omega))]
    simp only [e3]
    rw [if_neg (b64Char_ne_pad _ (by omega))]
    simp only [e4, Option.map_some', Option.some.injEq, List.cons.injEq, and_true]
    refine ⟨by omega, by omega, by omega⟩

theorem utf8EncodeChar_ne_nil (c : Char) : utf8EncodeChar c ≠ [] := by
  simp only [utf8EncodeChar]
  split_ifs <;> simp

theorem utf8EncodeChar_length_pos (c : Char) : 1 ≤ (utf8EncodeChar c).length := by
  simp only [utf8EncodeChar]
  split_ifs <;> simp

theorem utf8EncodeChar_ok (c : Char) : BytesOk (utf8EncodeChar c) := by
  have hv : c.toNat < 55296 ∨ (57343 < c.toNat ∧ c.toNat < 1114112) := c.valid
  simp only [utf8EncodeChar]
  split_ifs with h1 h2 h3
  · intro x hx
    simp only [List.mem_cons, List.not_mem_nil, or_false] at hx
    subst hx
    omega
  · intro x hx
    simp only [List.mem_cons, List.not_mem_nil, or_false] at hx
    rcases hx with rfl | rfl <;> omega
  · intro x hx
    simp only [List.mem_cons, List.not_mem_nil, or_false] at hx
    rcases hx with rfl | rfl | rfl <;> omega
  · intro x hx
    simp only [List.mem_cons, List.not_mem_nil, or_false] at hx
    rcases hx with rfl | rfl | rfl | rfl <;> omega

theorem utf8Encode_foldr_ok : ∀ (cs : List Char),
    BytesOk (cs.foldr (fun ch acc => utf8EncodeChar ch ++ acc) [])
  | [] => bytesOk_nil
  | c :: cs => by
    simp only [List.foldr_cons]
    exact bytesOk_append _ _ (utf8EncodeChar_ok c) (utf8Encode_foldr_ok cs)

theorem utf8Encode_ok (s : String) : BytesOk (utf8Encode s) :=
  utf8Encode_foldr_ok s.data

theorem utf8DecodeOne_encodeChar (c : Char) (rest : List Nat) :
    utf8DecodeOne (utf8EncodeChar c ++ rest) = some (c, rest) := by
  have hv : c.toNat < 55296 ∨ (57343 < c.toNat ∧ c.toNat < 1114112) := c.valid
  have hc := Char.ofNat_toNat c
  by_cases h1 : c.toNat < 128
  · rw [show utf8EncodeChar c = [c.toNat] from by simp [utf8EncodeChar, h1]]
    simp only [List.cons_append, List.nil_append, utf8DecodeOne]
    rw [if_pos h1, hc]
  · by_cases h2 : c.toNat < 2048
    · rw [show utf8EncodeChar c = [192 + c.toNat / 64, 128 + c.toNat % 64] from by
        simp [utf8EncodeChar, h1, h2]]
      simp only [List.cons_append, List.nil_append, utf8DecodeOne]
      rw [if_neg (by omega), if_neg (by omega), if_pos (by omega)]
      simp only [utf8Dec2]
      rw [if_pos ⟨by omega, by omega⟩]
      have hn : (192 + c.toNat / 64 - 192) * 64 + (128 + c.toNat % 64 - 128) = c.toNat := by
        omega
      rw [hn, hc]
    · by_cases h3 : c.toNat < 65536
      · rw [show utf8EncodeChar c =
            [224 + c.toNat / 4096, 128 + c.toNat / 64 % 64, 128 + c.toNat % 64] from by
          simp [utf8EncodeChar, h1, h2, h3]]
        simp only [List.cons_append, List.nil_append, utf8DecodeOne]
        rw [if_neg (by omega), if_neg (by omega), if_neg (by omega), if_pos (by omega)]
        simp only [utf8Dec3]
        rw [if_pos ⟨⟨by omega, by omega⟩, by omega, by omega⟩]
        rw [if_neg (by omega)]
        have hn : (224 + c.toNat / 4096 - 224) * 4096 + (128 + c.toNat / 64 % 64 - 128) * 64 +
            (128 + c.toNat % 64 - 128) = c.toNat := by omega
        rw [hn, hc]
      · rw [show utf8EncodeChar c =
            [240 + c.toNat / 262144, 128 + c.toNat / 4096 % 64, 128 + c.toNat / 64 % 64,
              128 + c.toNat % 64] from by
          simp [utf8EncodeChar, h1, h2, h3]]
        simp only [List.cons_append, List.nil_append, utf8DecodeOne]
        rw [if_neg (by omega), if_neg (by omega), if_neg (by omega), if_neg (by omega),
            if_pos (by omega)]
        simp only [utf8Dec4]
        rw [if_pos ⟨⟨by omega, by omega⟩, ⟨by omega, by omega⟩, by omega, by omega⟩]
        rw [if_neg (by omega)]
        have hn : (240 + c.toNat / 262144 - 240) * 262144 +
            (128 + c.toNat / 4096 % 64 - 128) * 4096 +
            (128 + c.toNat / 64 % 64 - 128) * 64 + (128 + c.toNat % 64 - 128) = c.toNat := by
          omega
        rw [hn, hc]

theorem utf8DecodeLoop_encode : ∀ (cs : List Char) (fuel : Nat),
    (cs.foldr (fun ch acc => utf8EncodeChar ch ++ acc) []).length ≤ fuel →
    utf8DecodeLoop fuel (cs.foldr (fun ch acc => utf8EncodeChar ch ++ acc) []) = some cs := by
  intro cs
  induction cs with
  | nil =>
    intro fuel _
    rcases fuel with _ | fuel <;> simp [utf8DecodeLoop]
  | cons c cs ih =>
    intro fuel hlen
    simp only [List.foldr_cons] at hlen ⊢
    rcases fuel with _ | fuel
    · exfalso
      have h1 := utf8EncodeChar_length_pos c
      simp only [List.length_append, Nat.le_zero] at hlen
      omega
    · simp only [utf8DecodeLoop]
      rw [if_neg (by
        intro hnil
        exact utf8EncodeChar_ne_nil c (List.append_eq_nil.mp hnil).1)]
      rw [utf8DecodeOne_encodeChar]
      have hlen' : (cs.foldr (fun ch acc => utf8EncodeChar ch ++ acc) []).length ≤ fuel := by
        have h1 := utf8EncodeChar_length_pos c
        simp only [List.length_append] at hlen
        omega
      simp only [Option.some_bind]
      rw [ih fuel hlen']
      rfl

theorem utf8_roundtrip (s : String) : utf8Decode (utf8Encode s) = some s.data :=
  utf8DecodeLoop_encode s.data _ le_rfl

theorem wordLEBytes_ok (w : Nat) : BytesOk (wordLEBytes w) := by
  intro x hx
  simp only [wordLEBytes, List.mem_cons, List.not_mem_nil, or_false] at hx
  rcases hx with rfl | rfl | rfl | rfl <;> omega

theorem md5_ok (msg : List Nat) : BytesOk (md5 msg) := by
  simp only [md5]
  exact bytesOk_append _ _
    (bytesOk_append _ _
      (bytesOk_append _ _ (wordLEBytes_ok _) (wordLEBytes_ok _)) (wordLEBytes_ok _))
    (wordLEBytes_ok _)

theorem md5_length (msg : List Nat) : (md5 msg).length = 16 := by
  simp [md5, wordLEBytes]

theorem evpKdf_key_ok (p s : List Nat) : BytesOk (evpKdf p s).1 := by
  simp only [evpKdf]
  exact bytesOk_append _ _ (md5_ok _) (md5_ok _)

theorem evpKdf_iv_ok (p s : List Nat) : BytesOk (evpKdf p s).2 := by
  simp only [evpKdf]
  exact md5_ok _

theorem evpKdf_iv_length (p s : List Nat) : (evpKdf p s).2.length = 16 := by
  simp only [evpKdf]
  exact md5_length _

theorem saltedPrefix_ok : BytesOk saltedPrefix := by
  show ∀ b ∈ saltedPrefix, b < 256
  decide

theorem saltedPrefix_length : saltedPrefix.length = 8 := rfl

end Vault


/- ------------------------------------------------------------------
Vault lemmas VI: re-chunking the flattened ciphertext recovers the
block list.
------------------------------------------------------------------- -/

namespace Vault

theorem chunks16_flatten_blocks : ∀ (blocks : List (List Nat)),
    (∀ b ∈ blocks, b.length = 16) → chunks16 blocks.flatten = blocks := by
  intro blocks
  induction blocks with
  | nil => intro _; rfl
  | cons b bs ih =>
    intro h
    have hb : b.length = 16 := h b (List.mem_cons_self _ _)
    rcases b with _ | ⟨x0, b⟩
    · simp at hb
    rcases b with _ | ⟨x1, b⟩
    · simp at hb
    rcases b with _ | ⟨x2, b⟩
    · simp at hb
    rcases b with _ | ⟨x3, b⟩
    · simp at hb
    rcases b with _ | ⟨x4, b⟩
    · simp at hb
    rcases b with _ | ⟨x5, b⟩
    · simp at hb
    rcases b with _ | ⟨x6, b⟩
    · simp at hb
    rcases b with _ | ⟨x7, b⟩
    · simp at hb
    rcases b with _ | ⟨x8, b⟩
    · simp at hb
    rcases b with _ | ⟨x9, b⟩
    · simp at hb
    rcases b with _ | ⟨x10, b⟩
    · simp at hb
    rcases b with _ | ⟨x11, b⟩
    · simp at hb
    rcases b with _ | ⟨x12, b⟩
    · simp at hb
    rcases b with _ | ⟨x13, b⟩
    · simp at hb
    rcases b with _ | ⟨x14, b⟩
    · simp at hb
    rcases b with _ | ⟨x15, b⟩
    · simp at hb
    rcases b with _ | ⟨x16, b⟩
    · simp only [List.flatten_cons, List.cons_append, List.nil_append]
      rw [show chunks16 (x0 :: x1 :: x2 :: x3 :: x4 :: x5 :: x6 :: x7 :: x8 :: x9 :: x10 :: x11 :: x12 :: x13 :: x14 :: x15 :: bs.flatten) = [x0, x1, x2, x3, x4, x5, x6, x7, x8, x9, x10, x11, x12, x13, x14, x15] :: chunks16 bs.flatten from rfl]
      rw [ih (fun y hy => h y (List.mem_cons_of_mem _ hy))]
    · simp only [List.length_cons] at hb
      omega

end Vault

/- ------------------------------------------------------------------
Claim theorems
------------------------------------------------------------------- -/

/-- C1 (counterexample): processing the same change-feed batch twice —
the same single item, carried by two webhook deliveries — stores two
identical reply rows for provider message id `abc`, not exactly one: the
insert at part_000 line 382 is not keyed by a provider message id and no
dedup check exists, so re-processing duplicates the row. -/
theorem claim_C1_counterexample :
    (googleWebhook envA (Except.ok itemsA)
        (googleWebhook envA (Except.ok itemsA)
          { cursor := some "100", replies := [] } (Envelope.valid "team" "105")).2
        (Envelope.valid "team" "106")).2.replies = [rowA, rowA] := by
  decide

/-- C1 (amended): re-processing a change-feed batch is *not* idempotent —
each successful processing of the batch appends its rows again, so after
two runs of the same single-item batch two InboundReply rows exist for
that provider message id. -/
theorem claim_C1_amended (env : WebhookEnv) (items : List HistoryItem)
    (st : SyncState) (e hid1 hid2 c : String) (rs : List ReplyRow)
    (hc : st.cursor = some c) (hcne : c ≠ "") (h1ne : hid1 ≠ "")
    (hproc : Webhook.processHistory env items [] = (rs, false)) :
    (googleWebhook env (Except.ok items)
        (googleWebhook env (Except.ok items) st (Envelope.valid e hid1)).2
        (Envelope.valid e hid2)).2.replies = st.replies ++ rs ++ rs := by
  have hacc1 : Webhook.processHistory env items st.replies = (st.replies ++ rs, false) := by
    rw [Webhook.processHistory_acc, hproc]
  have hrun1 : googleWebhook env (Except.ok items) st (Envelope.valid e hid1) =
      (204, { cursor := some hid1, replies := st.replies ++ rs }) := by
    simp [googleWebhook, cursorTruthy, hc, hcne, hacc1]
  have hacc2 : Webhook.processHistory env items (st.replies ++ rs) =
      (st.replies ++ rs ++ rs, false) := by
    rw [Webhook.processHistory_acc, hproc]
  rw [hrun1]
  simp [googleWebhook, cursorTruthy, h1ne, hacc2]

/-- C1 (witness for the amended theorem): concrete double processing of
the batch `itemsA` appends `rowA` twice. -/
theorem claim_C1_witness :
    (googleWebhook envA (Except.ok itemsA)
        (googleWebhook envA (Except.ok itemsA)
          { cursor := some "100", replies := [] } (Envelope.valid "team" "105")).2
        (Envelope.valid "team" "106")).2.replies = ([] : List ReplyRow) ++ [rowA] ++ [rowA] :=
  claim_C1_amended envA itemsA { cursor := some "100", replies := [] }
    "team" "105" "106" "100" [rowA] rfl (by decide) (by decide) (by decide)

/-- C2 (counterexample): an inbound item matching neither resolution rule
(`<MX>` references no stored outbound message, the sender address matches
no stored contact email) leaves the `replies` table empty — the handler
completes with 204 yet persists nothing, while the claim requires a row
with null Contact/OutboundMessage references. -/
theorem claim_C2_counterexample :
    googleWebhook envB (Except.ok itemsA)
        { cursor := some "100", replies := [] } (Envelope.valid "team" "105") =
      (204, { cursor := some "105", replies := [] }) := by
  decide

/-- C2 (amended): an inbound item for which neither rule resolves is
*discarded*: the webhook handler only logs it and inserts no row at all
(the insert is guarded by `if (pageId)`), so no unattributed reply is
ever persisted. -/
theorem claim_C2_amended (env : WebhookEnv) (msg : FeedMessage)
    (parsed : ParsedMail) (f : MailFrom)
    (hl1 : msg.labelIds.contains "UNREAD" = true)
    (hl2 : msg.labelIds.contains "SENT" = false)
    (hf : env.fetchMessage msg.id = Except.ok parsed)
    (hr1 : Webhook.rule1 env.messages parsed.inReplyTo = none)
    (hfrom : parsed.«from» = some f)
    (hr2 : Webhook.rule2 env.pages f = none) :
    Webhook.processFeedMessage env msg = Except.ok none := by
  simp [Webhook.processFeedMessage, hl1, hl2, hf, hr1, hfrom, hr2, optTruthy]

/-- C2 (witness for the amended theorem): the concrete unattributed item
of the counterexample inserts nothing. -/
theorem claim_C2_witness :
    Webhook.processFeedMessage envB msgA = Except.ok none :=
  claim_C2_amended envB msgA parsedB
    { value := [{ address := "stranger@nowhere.org" }], text := "S <stranger@nowhere.org>" }
    (by decide) (by decide) (by decide) (by decide) (by decide) (by decide)

/-- C3: when the bracket-stripped `inReplyTo` of an inbound message
matches the provider message id of exactly one stored outbound message
(with a JS-truthy page id), the reply is attributed to that message's
page — for *every* contents of the `pages` table, so a different contact
with a matching email address cannot steal the attribution: rule 2 is
only consulted when rule 1 produced nothing. -/
theorem claim_C3_rule1_precedence (env : WebhookEnv) (msg : FeedMessage)
    (parsed : ParsedMail) (irt : String) (mrow : MessageRow) (f : MailFrom)
    (hl1 : msg.labelIds.contains "UNREAD" = true)
    (hl2 : msg.labelIds.contains "SENT" = false)
    (hf : env.fetchMessage msg.id = Except.ok parsed)
    (hirt : parsed.inReplyTo = some irt) (hne : irt ≠ "")
    (hsingle : single? (env.messages.filter
        (fun m => m.provider_message_id == some (stripAngles irt))) = some mrow)
    (hpid : mrow.page_id ≠ 0)
    (hfrom : parsed.«from» = some f) :
    Webhook.processFeedMessage env msg = Except.ok (some
      { content := parsed.text
        platform := "email"
        received_at := parsed.date
        is_reply := false
        page_id := mrow.page_id
        sender := f.text }) := by
  have hm1 : "UNREAD" ∈ msg.labelIds := by
    simpa using hl1
  have hm2 : "SENT" ∉ msg.labelIds := by
    simpa using hl2
  simp [Webhook.processFeedMessage, Webhook.rule1, hl1, hl2, hm1, hm2, hf, hirt, hne,
        hsingle, hpid, hfrom, optTruthy]

/-- C3 (witness): the concrete environment `envA` stores outbound `M1`
for page 1, and a *different* page (id 7) whose contact email equals the
sender's address; the reply still resolves to page 1. -/
theorem claim_C3_witness :
    Webhook.processFeedMessage envA msgA = Except.ok (some
      { content := "Thanks!"
        platform := "email"
        received_at := 5
        is_reply := false
        page_id := 1
        sender := "Bob <bob@other.com>" }) :=
  claim_C3_rule1_precedence envA msgA parsedA "<M1>"
    { provider_message_id := some "M1", page_id := 1 }
    { value := [{ address := "bob@other.com" }], text := "Bob <bob@other.com>" }
    (by decide) (by decide) (by decide) (by decide) (by decide) (by decide)
    (by decide) (by decide)

/-- C4: cursor durability.  In the webhook handler, when processing any
item of the fetched batch throws, the stored cursor is untouched (the
upsert at part_000 line 401 runs only after the loop finished), so the
next delivery re-fetches from the same position; when every item was
applied or skipped, the cursor is persisted.  The poll loop behaves the
same: a throw inside `processGmailHistory` skips both the in-memory and
the stored cursor update; on success both advance. -/
theorem claim_C4_cursor_durability :
    (∀ (env : WebhookEnv) (items : List HistoryItem) (st : SyncState) (e hid c : String),
      st.cursor = some c → c ≠ "" →
      (Webhook.processHistory env items st.replies).2 = true →
      (googleWebhook env (Except.ok items) st (Envelope.valid e hid)).2.cursor = st.cursor) ∧
    (∀ (env : WebhookEnv) (items : List HistoryItem) (st : SyncState) (e hid c : String),
      st.cursor = some c → c ≠ "" →
      (Webhook.processHistory env items st.replies).2 = false →
      (googleWebhook env (Except.ok items) st (Envelope.valid e hid)).2.cursor = some hid) ∧
    (∀ (env : PollEnv) (items : List HistoryItem) (newId : String) (st : PollState),
      (Poll.processGmailHistory env items st.replies).2 = true →
      (pollTick env (Except.ok (some items, newId)) st).startHistoryId = st.startHistoryId ∧
      (pollTick env (Except.ok (some items, newId)) st).stored = st.stored) ∧
    (∀ (env : PollEnv) (items : List HistoryItem) (newId : String) (st : PollState),
      (Poll.processGmailHistory env items st.replies).2 = false →
      (pollTick env (Except.ok (some items, newId)) st).startHistoryId = newId ∧
      (pollTick env (Except.ok (some items, newId)) st).stored = some newId) := by
  refine ⟨?_, ?_, ?_, ?_⟩
  · intro env items st e hid c hc hcne hflag
    obtain ⟨acc, hacc⟩ : ∃ a, Webhook.processHistory env items st.replies = (a, true) :=
      ⟨(Webhook.processHistory env items st.replies).1, by rw [← hflag]⟩
    simp [googleWebhook, cursorTruthy, hc, hcne, hacc]
  · intro env items st e hid c hc hcne hflag
    obtain ⟨acc, hacc⟩ : ∃ a, Webhook.processHistory env items st.replies = (a, false) :=
      ⟨(Webhook.processHistory env items st.replies).1, by rw [← hflag]⟩
    simp [googleWebhook, cursorTruthy, hc, hcne, hacc]
  · intro env items newId st hflag
    obtain ⟨acc, hacc⟩ : ∃ a, Poll.processGmailHistory env items st.replies = (a, true) :=
      ⟨(Poll.processGmailHistory env items st.replies).1, by rw [← hflag]⟩
    simp [pollTick, hacc]
  · intro env items newId st hflag
    obtain ⟨acc, hacc⟩ : ∃ a, Poll.processGmailHistory env items st.replies = (a, false) :=
      ⟨(Poll.processGmailHistory env items st.replies).1, by rw [← hflag]⟩
    simp [pollTick, hacc]

/-- C4 (witness): a 2-item batch whose second item's fetch rejects leaves
the webhook cursor at `100` (item 1's insert already durable), and the
poll-side analogue leaves the stored cursor at `100`. -/
theorem claim_C4_witness :
    (googleWebhook envA (Except.ok itemsTwo)
        { cursor := some "100", replies := [] } (Envelope.valid "team" "105")).2.cursor = some "100" ∧
    (pollTick envPoll (Except.ok (some itemsPoll, "205"))
        { startHistoryId := "100", stored := some "100", replies := [] }).stored = some "100" := by
  constructor
  · exact claim_C4_cursor_durability.1 envA itemsTwo
      { cursor := some "100", replies := [] } "team" "105" "100" rfl
      (by decide) (by decide)
  · exact (claim_C4_cursor_durability.2.2.1 envPoll itemsPoll "205"
      { startHistoryId := "100", stored := some "100", replies := [] } (by decide)).2

/-- C5 (counterexample): a valid envelope with an existing cursor whose
triggered sync fails (every message fetch rejects) is answered with HTTP
500 — the handler runs the sync synchronously and surfaces its failure to
the webhook caller instead of acknowledging success regardless. -/
theorem claim_C5_counterexample :
    (googleWebhook envFail (Except.ok itemsA)
        { cursor := some "100", replies := [] } (Envelope.valid "team" "105")).1 = 500 := by
  decide

/-- C5 (amended): the webhook handler awaits the whole sync before
responding and its status reflects the sync outcome — 500 when the
history fetch or any item throws, 204 only when every item was processed;
failures inside the sync are therefore visible to the webhook caller. -/
theorem claim_C5_amended (env : WebhookEnv) (items : List HistoryItem)
    (st : SyncState) (e hid c : String)
    (hc : st.cursor = some c) (hcne : c ≠ "") :
    (googleWebhook env (Except.error ()) st (Envelope.valid e hid)).1 = 500 ∧
    ((Webhook.processHistory env items st.replies).2 = true →
      (googleWebhook env (Except.ok items) st (Envelope.valid e hid)).1 = 500) ∧
    ((Webhook.processHistory env items st.replies).2 = false →
      (googleWebhook env (Except.ok items) st (Envelope.valid e hid)).1 = 204) := by
  refine ⟨?_, ?_, ?_⟩
  · simp [googleWebhook, cursorTruthy, hc, hcne]
  · intro hflag
    obtain ⟨acc, hacc⟩ : ∃ a, Webhook.processHistory env items st.replies = (a, true) :=
      ⟨(Webhook.processHistory env items st.replies).1, by rw [← hflag]⟩
    simp [googleWebhook, cursorTruthy, hc, hcne, hacc]
  · intro hflag
    obtain ⟨acc, hacc⟩ : ∃ a, Webhook.processHistory env items st.replies = (a, false) :=
      ⟨(Webhook.processHistory env items st.replies).1, by rw [← hflag]⟩
    simp [googleWebhook, cursorTruthy, hc, hcne, hacc]

/-- C5 (witness for the amended theorem): at the concrete failing
environment the handler answers 500. -/
theorem claim_C5_witness :
    (googleWebhook envFail (Except.error ())
        { cursor := some "100", replies := [] } (Envelope.valid "team" "105")).1 = 500 ∧
    (googleWebhook envFail (Except.ok itemsA)
        { cursor := some "100", replies := [] } (Envelope.valid "team" "105")).1 = 500 := by
  have h := claim_C5_amended envFail itemsA
    { cursor := some "100", replies := [] } "team" "105" "100" rfl (by decide)
  exact ⟨h.1, h.2.1 (by decide)⟩

/-- C6 (counterexample): a batch containing a malformed message (`m1`,
whose From header has no `<...>` part, so `match(...)[1]` throws)
followed by a well-formed reply (`m2`) leaves the poll state completely
unchanged — the malformed item is not skipped-and-logged: it aborts the
run, `m2` is never stored, and the cursor does not advance — while `m2`
alone would have stored a row. -/
theorem claim_C6_counterexample :
    pollTick envPoll (Except.ok (some itemsPoll, "205"))
        { startHistoryId := "100", stored := some "100", replies := [] } =
      { startHistoryId := "100", stored := some "100", replies := [] } ∧
    Poll.processPollMessage envPoll msgPollGood = (some rowPollGood, false) := by
  exact ⟨by decide, by decide⟩

/-- C6 (amended): a per-item decode failure is *not* contained: it aborts
the entire run — items after the failing one are not processed, only the
rows inserted before the failure remain, and the cursor (in-memory and
stored) is not advanced past the observed batch. -/
theorem claim_C6_amended (env : PollEnv) (pre post : List FeedMessage)
    (bad : FeedMessage) (acc1 : List PollReply)
    (hpre : Poll.processPollFeed env pre [] = (acc1, false))
    (hbad : Poll.processPollMessage env bad = (none, true)) :
    Poll.processPollFeed env (pre ++ bad :: post) [] = (acc1, true) ∧
    ∀ (newId : String) (st : PollState),
      pollTick env (Except.ok (some [{ messagesAdded := pre ++ bad :: post }], newId)) st =
        { st with replies := st.replies ++ acc1 } := by
  have hfeed : Poll.processPollFeed env (pre ++ bad :: post) [] = (acc1, true) := by
    rw [Poll.processPollFeed_append, hpre]
    simp [Poll.processPollFeed, hbad]
  refine ⟨hfeed, ?_⟩
  intro newId st
  have hacc : Poll.processPollFeed env (pre ++ bad :: post) st.replies =
      (st.replies ++ acc1, true) := by
    rw [Poll.processPollFeed_acc, hfeed]
  simp [pollTick, Poll.processGmailHistory, hacc]

/-- C6 (witness for the amended theorem): with no items before the
malformed one and the well-formed reply after it, the run stores nothing
and the poll state keeps its cursor. -/
theorem claim_C6_witness :
    Poll.processPollFeed envPoll ([] ++ msgPollBad :: [msgPollGood]) [] = ([], true) ∧
    pollTick envPoll
        (Except.ok (some [{ messagesAdded := [] ++ msgPollBad :: [msgPollGood] }], "205"))
        { startHistoryId := "100", stored := some "100", replies := [] } =
      { startHistoryId := "100", stored := some "100", replies := [] ++ ([] : List PollReply) } := by
  have h := claim_C6_amended envPoll [] [msgPollGood] msgPollBad []
    (by decide) (by decide)
  exact ⟨h.1, h.2 "205" { startHistoryId := "100", stored := some "100", replies := [] }⟩

/- ------------------------------------------------------------------
Lemmas about the quotation-marker scan (C7).
------------------------------------------------------------------- -/

namespace Quoted

theorem startsWithWrote_append_newline (xs ys : List Char) (h : '\n' ∉ xs) :
    startsWithWrote (xs ++ '\n' :: ys) = startsWithWrote xs := by
  unfold startsWithWrote
  by_cases h6 : 6 ≤ xs.length
  · rw [List.take_append_of_le_length h6]
  · push_neg at h6
    have hxs : xs.take 6 = xs := List.take_of_length_le (by omega)
    rw [List.take_append_eq_append_take, hxs]
    obtain ⟨k, hk⟩ : ∃ k, 6 - xs.length = k + 1 := ⟨5 - xs.length, by omega⟩
    rw [hk]
    have htake : ('\n' :: ys).take (k + 1) = '\n' :: ys.take k := rfl
    rw [htake]
    have h1 : ¬ (xs ++ '\n' :: ys.take k = wroteColon) := by
      intro he
      have hmem : '\n' ∈ wroteColon := by
        rw [← he]
        exact List.mem_append_right _ (List.mem_cons_self _ _)
      simp [wroteColon] at hmem
    have h2 : ¬ (xs = wroteColon) := by
      intro he
      have hlen := congrArg List.length he
      simp [wroteColon] at hlen
      omega
    simp [h1, h2]

theorem hasWrote_append_newline (ys : List Char) :
    ∀ xs : List Char, '\n' ∉ xs → '\r' ∉ xs →
      hasWroteAfterOn (xs ++ '\n' :: ys) = hasWroteAfterOn xs := by
  intro xs
  induction xs with
  | nil =>
    intro _ _
    have hsw : startsWithWrote ('\n' :: ys) = false := by
      unfold startsWithWrote
      have htake : ('\n' :: ys).take 6 = '\n' :: ys.take 5 := rfl
      rw [htake]
      simp [wroteColon]
    simp [hasWroteAfterOn, hsw]
  | cons c xs ih =>
    intro hn hr
    have hcn : c ≠ '\n' := by
      rintro rfl; exact hn (List.mem_cons_self _ _)
    have hcr : c ≠ '\r' := by
      rintro rfl; exact hr (List.mem_cons_self _ _)
    have hn' : '\n' ∉ xs := fun hm => hn (List.mem_cons_of_mem _ hm)
    have hr' : '\r' ∉ xs := fun hm => hr (List.mem_cons_of_mem _ hm)
    have hsw := startsWithWrote_append_newline (c :: xs) ys hn
    simp only [List.cons_append] at hsw
    simp only [List.cons_append, hasWroteAfterOn, hsw]
    simp [hcn, hcr, ih hn' hr', hsw]

theorem matchOnWrote_append_newline (xs ys : List Char)
    (hn : '\n' ∉ xs) (hr : '\r' ∉ xs) :
    matchOnWrote (xs ++ '\n' :: ys) = matchOnWrote xs := by
  match xs with
  | [] =>
    cases ys with
    | nil => simp [matchOnWrote]
    | cons y ys' => simp [matchOnWrote]
  | [c] => simp [matchOnWrote]
  | c :: d :: xs' =>
    have hn' : '\n' ∉ xs' := by
      intro hm; exact hn (List.mem_cons_of_mem _ (List.mem_cons_of_mem _ hm))
    have hr' : '\r' ∉ xs' := by
      intro hm; exact hr (List.mem_cons_of_mem _ (List.mem_cons_of_mem _ hm))
    simp [matchOnWrote, hasWrote_append_newline ys xs' hn' hr']

theorem splitAtMarker_append (ys : List Char) :
    ∀ xs : List Char, '\n' ∉ xs → '\r' ∉ xs →
      splitAtMarker (xs ++ '\n' :: ys) =
        (if matchOnWrote ys then xs else xs ++ '\n' :: splitAtMarker ys) := by
  intro xs
  induction xs with
  | nil =>
    intro _ _
    have hma : matchAt ('\n' :: ys) = matchOnWrote ys := by
      simp [matchAt]
    simp only [List.nil_append, splitAtMarker, hma]
  | cons c xs ih =>
    intro hn hr
    have hcn : c ≠ '\n' := by
      rintro rfl; exact hn (List.mem_cons_self _ _)
    have hcr : c ≠ '\r' := by
      rintro rfl; exact hr (List.mem_cons_self _ _)
    have hn' : '\n' ∉ xs := fun hm => hn (List.mem_cons_of_mem _ hm)
    have hr' : '\r' ∉ xs := fun hm => hr (List.mem_cons_of_mem _ hm)
    have hma : matchAt (c :: (xs ++ '\n' :: ys)) = false := by
      simp [matchAt, hcn, hcr]
    rw [List.cons_append]
    simp only [splitAtMarker, hma, Bool.false_eq_true, ↓reduceIte, List.append_eq]
    rw [ih hn' hr']
    by_cases h : matchOnWrote ys = true <;> simp [h]

theorem splitAtMarker_clean :
    ∀ xs : List Char, '\n' ∉ xs → '\r' ∉ xs → splitAtMarker xs = xs := by
  intro xs
  induction xs with
  | nil => intro _ _; simp [splitAtMarker]
  | cons c xs ih =>
    intro hn hr
    have hcn : c ≠ '\n' := by
      rintro rfl; exact hn (List.mem_cons_self _ _)
    have hcr : c ≠ '\r' := by
      rintro rfl; exact hr (List.mem_cons_self _ _)
    have hn' : '\n' ∉ xs := fun hm => hn (List.mem_cons_of_mem _ hm)
    have hr' : '\r' ∉ xs := fun hm => hr (List.mem_cons_of_mem _ hm)
    have hma : matchAt (c :: xs) = false := by
      simp [matchAt, hcn, hcr]
    simp [splitAtMarker, hma, ih hn' hr']

theorem joinLines_cons_cons (l l2 : String) (ls : List String) :
    (joinLines (l :: l2 :: ls)).data = l.data ++ '\n' :: (joinLines (l2 :: ls)).data := by
  show (l ++ "\n" ++ joinLines (l2 :: ls)).data = _
  simp [String.data_append]

theorem matchOnWrote_joinLines (l2 : String) (ls : List String)
    (hn : '\n' ∉ l2.data) (hr : '\r' ∉ l2.data) :
    matchOnWrote (joinLines (l2 :: ls)).data = lineIsMarker l2 := by
  cases ls with
  | nil => rfl
  | cons l3 ls' =>
    rw [joinLines_cons_cons, matchOnWrote_append_newline _ _ hn hr]
    rfl

theorem splitAtMarker_joinLines :
    ∀ lines : List String,
      (∀ l ∈ lines, '\n' ∉ l.data ∧ '\r' ∉ l.data) →
      splitAtMarker (joinLines lines).data = (joinLines (takeToMarker lines)).data := by
  intro lines
  induction lines with
  | nil => intro _; simp [joinLines, takeToMarker, splitAtMarker]
  | cons l rest ih =>
    intro hclean
    have hl := hclean l (List.mem_cons_self _ _)
    cases rest with
    | nil =>
      simp only [joinLines, takeToMarker, takeToMarkerTail]
      exact splitAtMarker_clean l.data hl.1 hl.2
    | cons l2 ls =>
      have hl2 := hclean l2 (List.mem_cons_of_mem _ (List.mem_cons_self _ _))
      rw [joinLines_cons_cons, splitAtMarker_append _ _ hl.1 hl.2,
          matchOnWrote_joinLines l2 ls hl2.1 hl2.2]
      by_cases hm : lineIsMarker l2 = true
      · rw [if_pos hm]
        simp [takeToMarker, takeToMarkerTail, hm, joinLines]
      · rw [if_neg hm]
        have hrest : splitAtMarker (joinLines (l2 :: ls)).data =
            (joinLines (takeToMarker (l2 :: ls))).data :=
          ih (fun x hx => hclean x (List.mem_cons_of_mem _ hx))
        have htail : takeToMarkerTail (l2 :: ls) = l2 :: takeToMarkerTail ls := by
          simp [takeToMarkerTail, hm]
        have htake2 : takeToMarker (l2 :: ls) = l2 :: takeToMarkerTail ls := by
          simp [takeToMarker, htail]
        rw [hrest, htake2]
        simp only [takeToMarker]
        rw [htail, joinLines_cons_cons]

end Quoted

/-- C7 (counterexample): the text `"hi\nOn Monday, John wrote:\n> old"`
contains no `wrote:` line *preceded by a blank line*, so by the claim the
whole text would be stored — but the code truncates at the marker anyway
(its regex `/\r?\nOn.*wrote:/` requires only a preceding newline) and
stores `"hi"`. -/
theorem claim_C7_counterexample :
    stripQuoted "hi\nOn Monday, John wrote:\n> old" = "hi" ∧
    "hi" ≠ "hi\nOn Monday, John wrote:\n> old" := by
  exact ⟨by decide, by decide⟩

/-- C7 (amended): on an LF-separated text (no line contains `\n` or
`\r`), the stored reply is the whitespace-trimmed join of the lines
strictly before the first line — other than the first — matching
`On.*wrote:`, with *no* blank-line requirement; if no such line exists,
the whole text is stored trimmed. -/
theorem claim_C7_amended (lines : List String)
    (hclean : ∀ l ∈ lines, '\n' ∉ l.data ∧ '\r' ∉ l.data) :
    stripQuoted (joinLines lines) = stripQuotedSpec lines := by
  unfold stripQuoted stripQuotedSpec
  rw [Quoted.splitAtMarker_joinLines lines hclean]

/-- C7 (witness for the amended theorem): the counterexample text, given
as its three lines. -/
theorem claim_C7_witness :
    stripQuoted (joinLines ["hi", "On Monday, John wrote:", "> old"]) =
      stripQuotedSpec ["hi", "On Monday, John wrote:", "> old"] :=
  claim_C7_amended ["hi", "On Monday, John wrote:", "> old"] (by decide)


/- Shared computation for C8: decrypting the vault ciphertext of
`"secret token"` (made under `"correct-key"` with salt
`00 00 00 00 00 00 00 1b`) under the different key `"wrong-key"`
*succeeds* and returns the garbage plaintext `""` — the wrong-key CBC
output ends in byte 16, so the unvalidated PKCS7 unpad silently drops
the whole block. -/
set_option maxRecDepth 1000000 in
set_option maxHeartbeats 4000000 in
theorem c8_compute :
    decrypt "wrong-key" (encrypt "correct-key" [0, 0, 0, 0, 0, 0, 0, 27] "secret token") =
      Except.ok "" := by
  decide

/-- C8 (counterexample): decryption under a mismatched key does *not*
fail loudly — with the encrypting key `"correct-key"` and the different
decrypting key `"wrong-key"`, `decrypt` returns `Except.ok ""`, silently
yielding garbage instead of an error, because the CryptoJS construction
carries no integrity tag and the PKCS7 padding is not validated. -/
theorem claim_C8_counterexample :
    decrypt "wrong-key" (encrypt "correct-key" [0, 0, 0, 0, 0, 0, 0, 27] "secret token") =
      Except.ok "" ∧
    ("wrong-key" : String) ≠ "correct-key" ∧ ("" : String) ≠ "secret token" :=
  ⟨c8_compute, by decide, by decide⟩

/-- C8 (amended): the vault performs no ciphertext integrity
verification: there are an encryption key, a *different* decryption key
and a plaintext for which decryption under the mismatched key succeeds
(`Except.ok`) yet returns a value different from the plaintext —
mismatched-key decryption can silently return garbage. -/
theorem claim_C8_amended :
    ∃ (key key' text : String) (salt : List Nat) (garbage : String),
      key' ≠ key ∧ salt.length = 8 ∧ Vault.BytesOk salt ∧
      decrypt key' (encrypt key salt text) = Except.ok garbage ∧ garbage ≠ text :=
  ⟨"correct-key", "wrong-key", "secret token", [0, 0, 0, 0, 0, 0, 0, 27], "",
    by decide, rfl,
    (show ∀ b ∈ ([0, 0, 0, 0, 0, 0, 0, 27] : List Nat), b < 256 by decide),
    c8_compute, by decide⟩

/-- C10: the vault's encrypt/decrypt pair is a round trip under a fixed
key — for every plaintext, every key and every 8-byte salt, decrypting
the result of encrypting returns the original plaintext. -/
theorem claim_C10_roundtrip (key text : String) (salt : List Nat)
    (hs : salt.length = 8) (hsok : Vault.BytesOk salt) :
    decrypt key (encrypt key salt text) = Except.ok text := by
  have hkeyok : Vault.BytesOk (Vault.evpKdf (Vault.utf8Encode key) salt).1 := Vault.evpKdf_key_ok _ _
  have hivok : Vault.BytesOk (Vault.evpKdf (Vault.utf8Encode key) salt).2 := Vault.evpKdf_iv_ok _ _
  have hivlen : ((Vault.evpKdf (Vault.utf8Encode key) salt).2).length = 16 := Vault.evpKdf_iv_length _ _
  have hpadok : Vault.BytesOk (Vault.pkcs7Pad (Vault.utf8Encode text)) :=
    Vault.pkcs7Pad_ok _ (Vault.utf8Encode_ok text)
  have hblocks : ∀ b ∈ Vault.chunks16 (Vault.pkcs7Pad (Vault.utf8Encode text)), Vault.BytesOk b ∧ b.length = 16 :=
    Vault.chunks16_blocks _ hpadok (Vault.pkcs7Pad_mod _)
  have hctblocks : ∀ c ∈ Vault.cbcEncryptBlocks ((Vault.evpKdf (Vault.utf8Encode key) salt).1) ((Vault.evpKdf (Vault.utf8Encode key) salt).2) (Vault.chunks16 (Vault.pkcs7Pad (Vault.utf8Encode text))), Vault.BytesOk c ∧ c.length = 16 :=
    Vault.cbcEncryptBlocks_blocks _ hkeyok _ _ (fun b hb => (hblocks b hb).1) hivok
  have hctok : Vault.BytesOk ((Vault.cbcEncryptBlocks ((Vault.evpKdf (Vault.utf8Encode key) salt).1) ((Vault.evpKdf (Vault.utf8Encode key) salt).2) (Vault.chunks16 (Vault.pkcs7Pad (Vault.utf8Encode text)))).flatten) :=
    Vault.bytesOk_flatten _ (fun b hb => (hctblocks b hb).1)
  have hfullok : Vault.BytesOk (Vault.saltedPrefix ++ salt ++ (Vault.cbcEncryptBlocks ((Vault.evpKdf (Vault.utf8Encode key) salt).1) ((Vault.evpKdf (Vault.utf8Encode key) salt).2) (Vault.chunks16 (Vault.pkcs7Pad (Vault.utf8Encode text)))).flatten) :=
    Vault.bytesOk_append _ _ (Vault.bytesOk_append _ _ Vault.saltedPrefix_ok hsok) hctok
  have hdec : Vault.b64Decode (Vault.b64Encode (Vault.saltedPrefix ++ salt ++ (Vault.cbcEncryptBlocks ((Vault.evpKdf (Vault.utf8Encode key) salt).1) ((Vault.evpKdf (Vault.utf8Encode key) salt).2) (Vault.chunks16 (Vault.pkcs7Pad (Vault.utf8Encode text)))).flatten)) = some (Vault.saltedPrefix ++ salt ++ (Vault.cbcEncryptBlocks ((Vault.evpKdf (Vault.utf8Encode key) salt).1) ((Vault.evpKdf (Vault.utf8Encode key) salt).2) (Vault.chunks16 (Vault.pkcs7Pad (Vault.utf8Encode text)))).flatten) :=
    Vault.b64_roundtrip _ hfullok
  have htake : (Vault.saltedPrefix ++ salt ++ (Vault.cbcEncryptBlocks ((Vault.evpKdf (Vault.utf8Encode key) salt).1) ((Vault.evpKdf (Vault.utf8Encode key) salt).2) (Vault.chunks16 (Vault.pkcs7Pad (Vault.utf8Encode text)))).flatten).take 8 = Vault.saltedPrefix := by
    rw [List.append_assoc, List.take_left' Vault.saltedPrefix_length]
  have hdropsalt : ((Vault.saltedPrefix ++ salt ++ (Vault.cbcEncryptBlocks ((Vault.evpKdf (Vault.utf8Encode key) salt).1) ((Vault.evpKdf (Vault.utf8Encode key) salt).2) (Vault.chunks16 (Vault.pkcs7Pad (Vault.utf8Encode text)))).flatten).drop 8).take 8 = salt := by
    rw [List.append_assoc, List.drop_left' Vault.saltedPrefix_length, List.take_left' hs]
  have hdropct : (Vault.saltedPrefix ++ salt ++ (Vault.cbcEncryptBlocks ((Vault.evpKdf (Vault.utf8Encode key) salt).1) ((Vault.evpKdf (Vault.utf8Encode key) salt).2) (Vault.chunks16 (Vault.pkcs7Pad (Vault.utf8Encode text)))).flatten).drop 16 = (Vault.cbcEncryptBlocks ((Vault.evpKdf (Vault.utf8Encode key) salt).1) ((Vault.evpKdf (Vault.utf8Encode key) salt).2) (Vault.chunks16 (Vault.pkcs7Pad (Vault.utf8Encode text)))).flatten := by
    rw [List.drop_left' (by rw [List.length_append, Vault.saltedPrefix_length, hs])]
  have hchunksct : Vault.chunks16 ((Vault.cbcEncryptBlocks ((Vault.evpKdf (Vault.utf8Encode key) salt).1) ((Vault.evpKdf (Vault.utf8Encode key) salt).2) (Vault.chunks16 (Vault.pkcs7Pad (Vault.utf8Encode text)))).flatten) = Vault.cbcEncryptBlocks ((Vault.evpKdf (Vault.utf8Encode key) salt).1) ((Vault.evpKdf (Vault.utf8Encode key) salt).2) (Vault.chunks16 (Vault.pkcs7Pad (Vault.utf8Encode text))) :=
    Vault.chunks16_flatten_blocks _ (fun c hc => (hctblocks c hc).2)
  have hdecblocks : Vault.cbcDecryptBlocks ((Vault.evpKdf (Vault.utf8Encode key) salt).1) ((Vault.evpKdf (Vault.utf8Encode key) salt).2) (Vault.cbcEncryptBlocks ((Vault.evpKdf (Vault.utf8Encode key) salt).1) ((Vault.evpKdf (Vault.utf8Encode key) salt).2) (Vault.chunks16 (Vault.pkcs7Pad (Vault.utf8Encode text)))) = Vault.chunks16 (Vault.pkcs7Pad (Vault.utf8Encode text)) :=
    Vault.cbc_roundtrip _ hkeyok _ _ hblocks hivok hivlen
  have hflat : (Vault.chunks16 (Vault.pkcs7Pad (Vault.utf8Encode text))).flatten = Vault.pkcs7Pad (Vault.utf8Encode text) := Vault.flatten_chunks16 _
  have hunpad : Vault.pkcs7UnpadNoCheck (Vault.pkcs7Pad (Vault.utf8Encode text)) = Vault.utf8Encode text :=
    Vault.pkcs7_unpad_pad _
  have hdecode : Vault.utf8Decode (Vault.utf8Encode text) = some text.data :=
    Vault.utf8_roundtrip text
  show decrypt key (String.mk (Vault.b64Encode (Vault.saltedPrefix ++ salt ++ (Vault.cbcEncryptBlocks ((Vault.evpKdf (Vault.utf8Encode key) salt).1) ((Vault.evpKdf (Vault.utf8Encode key) salt).2) (Vault.chunks16 (Vault.pkcs7Pad (Vault.utf8Encode text)))).flatten))) = Except.ok text
  unfold decrypt
  simp only [hdec, htake, hdropsalt, hdropct, hchunksct, hdecblocks, hflat, hunpad,
    hdecode, ↓reduceIte]

/-- C10 (witness): the round trip at the concrete key `"correct-key"`,
salt `00 00 00 00 00 00 00 1b` and plaintext `"secret token"`. -/
theorem claim_C10_witness :
    ([0, 0, 0, 0, 0, 0, 0, 27] : List Nat).length = 8 ∧
    Vault.BytesOk [0, 0, 0, 0, 0, 0, 0, 27] ∧
    decrypt "correct-key" (encrypt "correct-key" [0, 0, 0, 0, 0, 0, 0, 27] "secret token") =
      Except.ok "secret token" :=
  ⟨rfl,
   (show ∀ b ∈ ([0, 0, 0, 0, 0, 0, 0, 27] : List Nat), b < 256 by decide),
   claim_C10_roundtrip "correct-key" "secret token" [0, 0, 0, 0, 0, 0, 0, 27] rfl
     (show ∀ b ∈ ([0, 0, 0, 0, 0, 0, 0, 27] : List Nat), b < 256 by decide)⟩

end Outreach
